import Mathlib

/-!
Verification development for the karl2d Web Audio engine
(`karl2d/box2d-platformer/audio.js`).

The engine is embedded shallowly: the mutable singleton `karl2dAudio` object
becomes an explicit `EngineState` record, each JS method becomes a Lean
function from state to state (or to a value/state pair), and JS `Map`s become
insertion-ordered association lists with `Map.set`/`Map.get`/`Map.delete`
semantics.  Times and audio parameters (f64/f32 in the source) are modelled
as rationals.  The asynchronous parts (decode completion, the deferred-play
retry timer, the one-shot "ended" notification of a buffer source node) are
modelled as events of an operation alphabet `Op` with an enabledness
predicate `validOp`; per the host-boundary contract, the "ended" notification
fires only when playback reaches the end of the buffer without the node
having been stopped, so it is enabled only for an actively playing
(not paused, not stopped) non-looping instance.  The engine is modelled after
`init()` has succeeded; the `init`/`shutdown` lifecycle and the browser
autoplay-suspension handling are outside the operation alphabet.
-/

namespace Karl2dAudio

/-- Lookup in an insertion-ordered association list, mirroring JS `Map.get`. -/
def mget (k : Nat) : List (Nat × α) → Option α
  | [] => none
  | (k', v) :: rest => if k' = k then some v else mget k rest

/-- Insert/replace in an insertion-ordered association list, mirroring JS
`Map.set`: replaces the value in place if the key is present, appends
otherwise. -/
def mset (k : Nat) (v : α) : List (Nat × α) → List (Nat × α)
  | [] => [(k, v)]
  | (k', v') :: rest => if k' = k then (k, v) :: rest else (k', v') :: mset k v rest

/-- Removal from an association list, mirroring JS `Map.delete`. -/
def mdel (k : Nat) : List (Nat × α) → List (Nat × α)
  | [] => []
  | (k', v) :: rest => if k' = k then mdel k rest else (k', v) :: mdel k rest

/-- Decoded audio asset as stored in `sources` (`{ buffer, duration }`); the
opaque PCM buffer is represented by its duration, the only attribute the
engine reads from it. -/
structure SourceAsset where
  duration : ℚ
  deriving DecidableEq

/-- Buffer source node (`createBufferSource()`): the decoded buffer it is
bound to, its loop flag and its playback-rate scalar. -/
structure SourceNode where
  buffer : SourceAsset
  loop : Bool
  playbackRate : ℚ
  deriving DecidableEq

/-- Gain node (`createGain()`), a settable scalar gain. -/
structure GainNode where
  gain : ℚ
  deriving DecidableEq

/-- Stereo panner node (`createStereoPanner()`). -/
structure StereoPanner where
  pan : ℚ
  deriving DecidableEq

/-- Spatial panner node (`createPanner()` with HRTF panning, linear distance
model, and the parameters `playAudioInternal` sets on it). -/
structure SpatialPanner where
  refDistance : ℚ
  maxDistance : ℚ
  rolloffFactor : ℚ
  posX : ℚ
  posY : ℚ
  deriving DecidableEq

/-- One playback instance as stored in `instances` (the object literal built
in `playAudioInternal`).  `outputBus` records which bus gain stage the chain
was connected to (the resolved bus, falling back to master = 1). -/
structure Instance where
  sourceHandle : Nat
  sourceNode : SourceNode
  gainNode : GainNode
  pannerNode : Option StereoPanner
  spatialPanner : Option SpatialPanner
  outputBus : Nat
  busHandle : Nat
  startTime : ℚ
  pauseTime : ℚ
  paused : Bool
  stopped : Bool
  loop : Bool
  volume : ℚ
  pitch : ℚ
  hasCallback : Bool
  deriving DecidableEq

/-- Number of panner stages in an instance's rendering chain. -/
def Instance.pannerStageCount (i : Instance) : Nat :=
  (if i.spatialPanner.isSome then 1 else 0) + (if i.pannerNode.isSome then 1 else 0)

/-- Whether the instance's chain connects the source node straight to the
gain node, with no panner stage in between. -/
def Instance.directToGain (i : Instance) : Bool :=
  i.spatialPanner.isNone && i.pannerNode.isNone

/-- One mix bus as stored in `buses` (`{ gainNode, volume, muted }`). -/
structure Bus where
  gainNode : GainNode
  volume : ℚ
  muted : Bool
  deriving DecidableEq

/-- The thirteen parameters of `playAudio`, minus the instance handle. -/
structure PlayRequest where
  sourceHandle : Nat
  busHandle : Nat
  volume : ℚ
  pan : ℚ
  pitch : ℚ
  loop : Bool
  delay : ℚ
  isSpatial : Bool
  posX : ℚ
  posY : ℚ
  minDistance : ℚ
  maxDistance : ℚ
  hasCallback : Bool
  deriving DecidableEq

/-- A parked play request in `pendingPlays`: the pre-allocated instance
handle, the full parameter snapshot, and the retry counter. -/
structure PendingPlay where
  handle : Nat
  req : PlayRequest
  retries : Nat
  deriving DecidableEq

/-- The whole mutable state of the `karl2dAudio` singleton after `init()`:
handle counters, the three registries, the finished-callback queue, the
deferred-play queue, the listener position, and the engine clock
(`audioContext.currentTime`).  `pendingDecodes` holds source handles that
`_js_load_audio` has issued whose asynchronous decode has not completed yet. -/
structure EngineState where
  nextSourceHandle : Nat
  nextInstanceHandle : Nat
  nextBusHandle : Nat
  sources : List (Nat × SourceAsset)
  pendingDecodes : List Nat
  instances : List (Nat × Instance)
  buses : List (Nat × Bus)
  finishedCallbacks : List Nat
  pendingPlays : List PendingPlay
  listenerX : ℚ
  listenerY : ℚ
  now : ℚ
  deriving DecidableEq

/-- Engine state right after a successful `init()`: all counters at their
initial values and the master bus (handle 1, volume 1, unmuted, gain node at
the `createGain()` default of 1) registered. -/
def initState : EngineState where
  nextSourceHandle := 1
  nextInstanceHandle := 1
  nextBusHandle := 2
  sources := []
  pendingDecodes := []
  instances := []
  buses := [(1, { gainNode := { gain := 1 }, volume := 1, muted := false })]
  finishedCallbacks := []
  pendingPlays := []
  listenerX := 0
  listenerY := 0
  now := 0

/-- Truncation toward zero, the rounding JS floating-point remainder uses. -/
def ratTrunc (q : ℚ) : ℤ :=
  if 0 ≤ q then Int.floor q else Int.ceil q

/-- JS `%` on numbers: the remainder of truncating division, with the sign of
the dividend. -/
def jsMod (a b : ℚ) : ℚ :=
  a - b * ratTrunc (a / b)

/-- Source management: `_js_load_audio` reserves a source handle immediately
and starts the asynchronous decode; the registry entry appears only when the
decode completes.  Returns the handle together with the new state. -/
def loadAudio (s : EngineState) : Nat × EngineState :=
  let handle := s.nextSourceHandle
  (handle, { s with nextSourceHandle := handle + 1,
                    pendingDecodes := s.pendingDecodes ++ [handle] })

/-- Completion of the asynchronous `decodeAudioData` for handle `h`: stores
`{ buffer, duration }` in the source registry. -/
def decodeComplete (s : EngineState) (h : Nat) (duration : ℚ) : EngineState :=
  { s with sources := mset h { duration := duration } s.sources,
           pendingDecodes := s.pendingDecodes.filter (fun k => k ≠ h) }

/-- Failure of the asynchronous decode for handle `h`: logged and swallowed,
the handle never resolves. -/
def decodeFailed (s : EngineState) (h : Nat) : EngineState :=
  { s with pendingDecodes := s.pendingDecodes.filter (fun k => k ≠ h) }

/-- `destroyAudio`: removes the source from the registry. -/
def destroyAudio (s : EngineState) (sourceHandle : Nat) : EngineState :=
  { s with sources := mdel sourceHandle s.sources }

/-- `getAudioDuration`: the source's duration, or 0 if the handle is not in
the registry. -/
def getAudioDuration (s : EngineState) (sourceHandle : Nat) : ℚ :=
  match mget sourceHandle s.sources with
  | none => 0
  | some source => source.duration

/-- The instance object literal `playAudioInternal` stores: the rendering
chain source→[spatial panner | stereo panner if pan ≠ 0]→gain→output, with
`startTime = currentTime + delay` and all logical fields from the request. -/
def builtInstance (req : PlayRequest) (source : SourceAsset) (s : EngineState) : Instance :=
  let sourceNode : SourceNode :=
    { buffer := source, loop := req.loop, playbackRate := req.pitch }
  let gainNode : GainNode := { gain := req.volume }
  let outputBus : Nat :=
    if 1 < req.busHandle then
      match mget req.busHandle s.buses with
      | some _ => req.busHandle
      | none => 1
    else 1
  let spatialPanner : Option SpatialPanner :=
    if req.isSpatial then
      some { refDistance := req.minDistance, maxDistance := req.maxDistance,
             rolloffFactor := 1, posX := req.posX, posY := req.posY }
    else none
  let pannerNode : Option StereoPanner :=
    if req.isSpatial = false ∧ req.pan ≠ 0 then some { pan := req.pan } else none
  { sourceHandle := req.sourceHandle
    sourceNode := sourceNode
    gainNode := gainNode
    pannerNode := pannerNode
    spatialPanner := spatialPanner
    outputBus := outputBus
    busHandle := req.busHandle
    startTime := s.now + req.delay
    pauseTime := 0
    paused := false
    stopped := false
    loop := req.loop
    volume := req.volume
    pitch := req.pitch
    hasCallback := req.hasCallback }

/-- `playAudioInternal`: the shared construction logic for immediate and
deferred plays; builds the rendering chain and registers the instance under
`handle`.  The `onended` completion hook it installs is modelled by the
`Op.ended` event. -/
def playAudioInternal (handle : Nat) (req : PlayRequest) (source : SourceAsset)
    (s : EngineState) : EngineState :=
  { s with instances := mset handle (builtInstance req source s) s.instances }

/-- `playAudio`: if the source is not in the registry yet, allocate the
instance handle, park the full parameter snapshot in `pendingPlays` with
retry counter 0, and return the handle; otherwise allocate the handle and
play immediately through `playAudioInternal`. -/
def playAudio (s : EngineState) (req : PlayRequest) : Nat × EngineState :=
  match mget req.sourceHandle s.sources with
  | none =>
    let handle := s.nextInstanceHandle
    (handle, { s with nextInstanceHandle := handle + 1,
                      pendingPlays := s.pendingPlays ++ [⟨handle, req, 0⟩] })
  | some source =>
    let handle := s.nextInstanceHandle
    (handle, playAudioInternal handle req source
      { s with nextInstanceHandle := handle + 1 })

/-- `stopAudio`: `stopInstance` (marks the record stopped, stops the node and
disconnects the chain — the record is discarded) followed by removal from the
instance table; no-op on an unknown handle. -/
def stopAudio (s : EngineState) (instanceHandle : Nat) : EngineState :=
  match mget instanceHandle s.instances with
  | none => s
  | some _ => { s with instances := mdel instanceHandle s.instances }

/-- `pauseAudio`: records `pauseTime = currentTime - startTime`, marks the
instance paused and stops the current source node; no-op if unknown, already
paused, or stopped. -/
def pauseAudio (s : EngineState) (instanceHandle : Nat) : EngineState :=
  match mget instanceHandle s.instances with
  | none => s
  | some i =>
    if i.paused || i.stopped then s
    else
      let i' := { i with paused := true, pauseTime := s.now - i.startTime }
      { s with instances := mset instanceHandle i' s.instances }

/-- `resumeAudio`: rebuilds the source node from the stored source buffer,
reconnects it through the instance's existing panner/gain chain, clears the
paused flag, sets `startTime = currentTime - pauseTime` and starts the node
seeking `pauseTime` seconds into the buffer.  No-op if the handle is unknown,
the instance is not paused or is stopped, or the source is gone from the
registry. -/
def resumeAudio (s : EngineState) (instanceHandle : Nat) : EngineState :=
  match mget instanceHandle s.instances with
  | none => s
  | some i =>
    if !i.paused || i.stopped then s
    else
      match mget i.sourceHandle s.sources with
      | none => s
      | some source =>
        let newSourceNode : SourceNode :=
          { buffer := source, loop := i.loop, playbackRate := i.pitch }
        let i' := { i with sourceNode := newSourceNode, paused := false,
                           startTime := s.now - i.pauseTime }
        { s with instances := mset instanceHandle i' s.instances }

/-- `stopAllAudio`: stops and removes every instance whose bus matches the
filter, every instance when the filter is 0. -/
def stopAllAudio (s : EngineState) (busHandle : Nat) : EngineState :=
  { s with instances :=
      s.instances.filter (fun kv => !(busHandle == 0 || kv.2.busHandle == busHandle)) }

/-- `setAudioVolume`: stores the volume and pushes it to the gain node; no-op
on an unknown handle. -/
def setAudioVolume (s : EngineState) (instanceHandle : Nat) (volume : ℚ) : EngineState :=
  match mget instanceHandle s.instances with
  | none => s
  | some i =>
    let i' := { i with volume := volume, gainNode := ({ gain := volume } : GainNode) }
    { s with instances := mset instanceHandle i' s.instances }

/-- `setAudioPan`: writes the live stereo panner's pan value; no-op when the
handle is unknown or the instance has no stereo panner node (spatial
instances, and non-spatial instances created with pan = 0). -/
def setAudioPan (s : EngineState) (instanceHandle : Nat) (pan : ℚ) : EngineState :=
  match mget instanceHandle s.instances with
  | none => s
  | some i =>
    match i.pannerNode with
    | none => s
    | some _ =>
      let i' := { i with pannerNode := some ({ pan := pan } : StereoPanner) }
      { s with instances := mset instanceHandle i' s.instances }

/-- `setAudioPitch`: stores the pitch and pushes it to the source node's
playback rate; no-op on an unknown handle. -/
def setAudioPitch (s : EngineState) (instanceHandle : Nat) (pitch : ℚ) : EngineState :=
  match mget instanceHandle s.instances with
  | none => s
  | some i =>
    let i' := { i with pitch := pitch,
                       sourceNode := { i.sourceNode with playbackRate := pitch } }
    { s with instances := mset instanceHandle i' s.instances }

/-- `setAudioLooping`: stores the loop flag and pushes it to the source node;
no-op on an unknown handle. -/
def setAudioLooping (s : EngineState) (instanceHandle : Nat) (loop : Bool) : EngineState :=
  match mget instanceHandle s.instances with
  | none => s
  | some i =>
    let i' := { i with loop := loop, sourceNode := { i.sourceNode with loop := loop } }
    { s with instances := mset instanceHandle i' s.instances }

/-- `setAudioPosition`: writes the live spatial panner's position; no-op when
the handle is unknown or the instance has no spatial panner. -/
def setAudioPosition (s : EngineState) (instanceHandle : Nat) (x y : ℚ) : EngineState :=
  match mget instanceHandle s.instances with
  | none => s
  | some i =>
    match i.spatialPanner with
    | none => s
    | some sp =>
      let i' := { i with spatialPanner := some { sp with posX := x, posY := y } }
      { s with instances := mset instanceHandle i' s.instances }

/-- `isAudioPlaying`: true iff the handle is known and the instance is
neither paused nor stopped. -/
def isAudioPlaying (s : EngineState) (instanceHandle : Nat) : Bool :=
  match mget instanceHandle s.instances with
  | none => false
  | some i => !i.paused && !i.stopped

/-- `isAudioPaused`: the paused flag, false on an unknown handle. -/
def isAudioPaused (s : EngineState) (instanceHandle : Nat) : Bool :=
  match mget instanceHandle s.instances with
  | none => false
  | some i => i.paused

/-- `getAudioTime`: 0 on an unknown handle; `pauseTime` while paused; 0 while
stopped; otherwise `elapsed = currentTime - startTime`, reduced modulo the
source duration for a looping instance with a live source, and clamped with
`Math.min(elapsed, source ? source.duration : elapsed)` otherwise. -/
def getAudioTime (s : EngineState) (instanceHandle : Nat) : ℚ :=
  match mget instanceHandle s.instances with
  | none => 0
  | some i =>
    if i.paused then i.pauseTime
    else if i.stopped then 0
    else
      let elapsed := s.now - i.startTime
      match mget i.sourceHandle s.sources with
      | some source =>
        if i.loop then jsMod elapsed source.duration
        else min elapsed source.duration
      | none => min elapsed elapsed

/-- `createAudioBus`: registers a fresh bus (gain node at the default 1,
volume 1, unmuted) connected to master, returning its handle. -/
def createAudioBus (s : EngineState) : Nat × EngineState :=
  let handle := s.nextBusHandle
  (handle, { s with nextBusHandle := handle + 1,
                    buses := mset handle
                      { gainNode := { gain := 1 }, volume := 1, muted := false }
                      s.buses })

/-- `destroyAudioBus`: rejected for handles ≤ 1 (the master bus); otherwise
disconnects and removes the bus; no-op on an unknown handle. -/
def destroyAudioBus (s : EngineState) (busHandle : Nat) : EngineState :=
  if busHandle ≤ 1 then s
  else
    match mget busHandle s.buses with
    | none => s
    | some _ => { s with buses := mdel busHandle s.buses }

/-- `setAudioBusVolume`: stores the volume, and pushes it to the bus gain
node only when the bus is not muted; no-op on an unknown handle. -/
def setAudioBusVolume (s : EngineState) (busHandle : Nat) (volume : ℚ) : EngineState :=
  match mget busHandle s.buses with
  | none => s
  | some bus =>
    let bus' := { bus with volume := volume,
                           gainNode := if bus.muted then bus.gainNode
                                       else ({ gain := volume } : GainNode) }
    { s with buses := mset busHandle bus' s.buses }

/-- `getAudioBusVolume`: the stored volume, 1.0 on an unknown handle. -/
def getAudioBusVolume (s : EngineState) (busHandle : Nat) : ℚ :=
  match mget busHandle s.buses with
  | none => 1
  | some bus => bus.volume

/-- `setAudioBusMuted`: stores the muted flag and sets the effective gain to
0 when muting, back to the stored volume when unmuting; no-op on an unknown
handle. -/
def setAudioBusMuted (s : EngineState) (busHandle : Nat) (muted : Bool) : EngineState :=
  match mget busHandle s.buses with
  | none => s
  | some bus =>
    let bus' := { bus with muted := muted,
                           gainNode := ({ gain := if muted then 0 else bus.volume } : GainNode) }
    { s with buses := mset busHandle bus' s.buses }

/-- `isAudioBusMuted`: the muted flag, false on an unknown handle. -/
def isAudioBusMuted (s : EngineState) (busHandle : Nat) : Bool :=
  match mget busHandle s.buses with
  | none => false
  | some bus => bus.muted

/-- `setListenerPosition`. -/
def setListenerPosition (s : EngineState) (x y : ℚ) : EngineState :=
  { s with listenerX := x, listenerY := y }

/-- `pollFinishedCallback`: pops and returns the oldest finished instance
handle, or 0 when the queue is empty. -/
def pollFinishedCallback (s : EngineState) : Nat × EngineState :=
  match s.finishedCallbacks with
  | [] => (0, s)
  | h :: rest => (h, { s with finishedCallbacks := rest })

/-- The `onended` hook installed by `playAudioInternal`/`resumeAudio`: if the
instance is not stopped and not looping, push the handle to the finished
queue when it was created with a callback, and remove the instance from the
table.  The handler reads the live instance record; firing of the event is
constrained by `validOp`. -/
def endedEvent (s : EngineState) (handle : Nat) : EngineState :=
  match mget handle s.instances with
  | none => s
  | some i =>
    if !i.stopped && !i.loop then
      let fin := if i.hasCallback then s.finishedCallbacks ++ [handle]
                 else s.finishedCallbacks
      { s with finishedCallbacks := fin, instances := mdel handle s.instances }
    else s

/-- One pass of `processPendingPlays` over the pending list: promotes every
request whose source is now in the registry via `playAudioInternal`, bumps
the retry counter of the rest, and keeps only those with fewer than 10
retries.  Returns the updated state and the new pending list. -/
def sweepLoop : List PendingPlay → EngineState → EngineState × List PendingPlay
  | [], s => (s, [])
  | p :: rest, s =>
    match mget p.req.sourceHandle s.sources with
    | some source => sweepLoop rest (playAudioInternal p.handle p.req source s)
    | none =>
      if p.retries + 1 < 10 then
        ((sweepLoop rest s).1, { p with retries := p.retries + 1 } :: (sweepLoop rest s).2)
      else
        sweepLoop rest s

/-- `processPendingPlays`: the timer-driven retry sweep over the deferred
play queue. -/
def processPendingPlays (s : EngineState) : EngineState :=
  let swept := sweepLoop s.pendingPlays { s with pendingPlays := [] }
  { swept.1 with pendingPlays := swept.2 }

/-- The operation alphabet of the modelled engine: every state-mutating entry
point of the call surface plus the asynchronous events (decode completion or
failure, the retry-timer sweep, the natural end-of-buffer notification) and
clock advance. -/
inductive Op where
  | load
  | decoded (h : Nat) (duration : ℚ)
  | decodeFail (h : Nat)
  | destroySource (h : Nat)
  | play (req : PlayRequest)
  | stop (h : Nat)
  | pause (h : Nat)
  | resume (h : Nat)
  | stopAll (bus : Nat)
  | setVolume (h : Nat) (v : ℚ)
  | setPan (h : Nat) (p : ℚ)
  | setPitch (h : Nat) (p : ℚ)
  | setLooping (h : Nat) (b : Bool)
  | setPosition (h : Nat) (x y : ℚ)
  | createBus
  | destroyBus (h : Nat)
  | setBusVolume (h : Nat) (v : ℚ)
  | setBusMuted (h : Nat) (m : Bool)
  | setListener (x y : ℚ)
  | ended (h : Nat)
  | sweep
  | poll
  | advanceClock (d : ℚ)
  deriving DecidableEq

/-- Deterministic effect of one operation on the engine state. -/
def step (s : EngineState) : Op → EngineState
  | Op.load => (loadAudio s).2
  | Op.decoded h d => decodeComplete s h d
  | Op.decodeFail h => decodeFailed s h
  | Op.destroySource h => destroyAudio s h
  | Op.play req => (playAudio s req).2
  | Op.stop h => stopAudio s h
  | Op.pause h => pauseAudio s h
  | Op.resume h => resumeAudio s h
  | Op.stopAll bus => stopAllAudio s bus
  | Op.setVolume h v => setAudioVolume s h v
  | Op.setPan h p => setAudioPan s h p
  | Op.setPitch h p => setAudioPitch s h p
  | Op.setLooping h b => setAudioLooping s h b
  | Op.setPosition h x y => setAudioPosition s h x y
  | Op.createBus => (createAudioBus s).2
  | Op.destroyBus h => destroyAudioBus s h
  | Op.setBusVolume h v => setAudioBusVolume s h v
  | Op.setBusMuted h m => setAudioBusMuted s h m
  | Op.setListener x y => setListenerPosition s x y
  | Op.ended h => endedEvent s h
  | Op.sweep => processPendingPlays s
  | Op.poll => (pollFinishedCallback s).2
  | Op.advanceClock d => { s with now := s.now + d }

/-- Enabledness of an operation.  Caller-driven operations are always
possible; the asynchronous events are constrained by the host contract: a
decode completes at most once per issued handle and yields a nonnegative
duration, the clock is monotone, and the "ended" notification fires only for
the current node of an actively playing, non-looping instance (a paused or
stopped instance has had its node stopped, and a looping node never reaches
the end of its buffer). -/
def validOp (s : EngineState) : Op → Bool
  | Op.decoded h d => s.pendingDecodes.contains h && decide (0 ≤ d)
  | Op.decodeFail h => s.pendingDecodes.contains h
  | Op.ended h =>
    match mget h s.instances with
    | none => false
    | some i => !i.paused && !i.stopped && !i.loop
  | Op.advanceClock d => decide (0 ≤ d)
  | _ => true

/-- Run a list of operations from a state. -/
def run (s : EngineState) : List Op → EngineState
  | [] => s
  | op :: ops => run (step s op) ops

/-- A trace is valid when every operation is enabled at the state where it
fires. -/
def validTrace (s : EngineState) : List Op → Bool
  | [] => true
  | op :: ops => validOp s op && validTrace (step s op) ops

theorem mget_cons (k k' : Nat) (v : α) (rest : List (Nat × α)) :
    mget k ((k', v) :: rest) = if k' = k then some v else mget k rest := rfl

theorem mget_mset_self (k : Nat) (v : α) (m : List (Nat × α)) :
    mget k (mset k v m) = some v := by
  induction m with
  | nil => simp [mget, mset]
  | cons kv rest ih =>
    obtain ⟨k', v'⟩ := kv
    by_cases h : k' = k <;> simp [mget, mset, h, ih]

theorem mget_mset_ne {k k' : Nat} (h : k' ≠ k) (v : α) (m : List (Nat × α)) :
    mget k' (mset k v m) = mget k' m := by
  induction m with
  | nil => simp [mget, mset, Ne.symm h]
  | cons kv rest ih =>
    obtain ⟨k'', v''⟩ := kv
    by_cases hk : k'' = k
    · subst hk
      simp [mget, mset, Ne.symm h]
    · simp [mget, mset, hk, ih]

theorem mget_mdel_self (k : Nat) (m : List (Nat × α)) :
    mget k (mdel k m) = none := by
  induction m with
  | nil => simp [mget, mdel]
  | cons kv rest ih =>
    obtain ⟨k', v'⟩ := kv
    by_cases h : k' = k
    · simpa [mdel, h] using ih
    · simpa [mdel, h, mget] using ih

theorem mget_mdel_ne {k k' : Nat} (h : k' ≠ k) (m : List (Nat × α)) :
    mget k' (mdel k m) = mget k' m := by
  induction m with
  | nil => simp [mget, mdel]
  | cons kv rest ih =>
    obtain ⟨k'', v''⟩ := kv
    by_cases hk : k'' = k
    · subst hk
      simpa [mdel, mget, Ne.symm h] using ih
    · by_cases hk' : k'' = k' <;> simp [mdel, hk, mget, hk', h, ih]

theorem mdel_of_mget_none {k : Nat} {m : List (Nat × α)}
    (h : mget k m = none) : mdel k m = m := by
  induction m with
  | nil => simp [mdel]
  | cons kv rest ih =>
    obtain ⟨k', v'⟩ := kv
    rw [mget_cons] at h
    by_cases hk : k' = k
    · simp [hk] at h
    · simp only [if_neg hk] at h
      simp [mdel, hk, ih h]

theorem mget_filter_none {k : Nat} {m : List (Nat × α)} (f : Nat × α → Bool)
    (h : mget k m = none) : mget k (m.filter f) = none := by
  induction m with
  | nil => simp [mget]
  | cons kv rest ih =>
    obtain ⟨k', v'⟩ := kv
    rw [mget_cons] at h
    by_cases hk : k' = k
    · simp [hk] at h
    · simp only [if_neg hk] at h
      by_cases hf : f (k', v') <;> simp [List.filter_cons, hf, mget, hk, ih h]

theorem mget_filter_some {k : Nat} {v : α} {m : List (Nat × α)} {f : Nat × α → Bool}
    (h : mget k m = some v) (hf : f (k, v) = true) :
    mget k (m.filter f) = some v := by
  induction m with
  | nil => simp [mget] at h
  | cons kv rest ih =>
    obtain ⟨k', v'⟩ := kv
    rw [mget_cons] at h
    by_cases hk : k' = k
    · subst hk
      simp at h
      subst h
      simp [List.filter_cons, hf, mget]
    · simp only [if_neg hk] at h
      by_cases hf' : f (k', v') <;> simp [List.filter_cons, hf', mget, hk, ih h]

theorem mem_of_mget_mset {k k₀ : Nat} {v v₀ : α} {m : List (Nat × α)}
    (h : mget k (mset k₀ v₀ m) = some v) :
    (k = k₀ ∧ v = v₀) ∨ mget k m = some v := by
  by_cases hk : k = k₀
  · subst hk
    rw [mget_mset_self] at h
    exact Or.inl ⟨rfl, (Option.some.injEq _ _).mp h.symm⟩
  · rw [mget_mset_ne hk] at h
    exact Or.inr h

theorem mget_mem {k : Nat} {v : α} {m : List (Nat × α)}
    (h : mget k m = some v) : (k, v) ∈ m := by
  induction m with
  | nil => simp [mget] at h
  | cons kv rest ih =>
    obtain ⟨k', v'⟩ := kv
    rw [mget_cons] at h
    by_cases hk : k' = k
    · subst hk
      simp at h
      subst h
      exact List.mem_cons_self _ _
    · simp only [if_neg hk] at h
      exact List.mem_cons_of_mem _ (ih h)

/-- C1.  Pause followed by an immediate resume is a position-preserving round
trip: for a Playing instance whose source is still registered, `pauseAudio`
stores `pauseTime = clock_now - startTime` and marks it paused, `resumeAudio`
rebuilds the node, clears the paused flag and sets
`startTime = clock_now - pauseTime`, and `getAudioTime` right after the
resume equals `getAudioTime` right before the pause. -/
theorem pause_resume_preserves_get_time
    (s : EngineState) (h : Nat) (i : Instance) (src : SourceAsset)
    (hi : mget h s.instances = some i)
    (hpau : i.paused = false) (hsto : i.stopped = false)
    (hsrc : mget i.sourceHandle s.sources = some src) :
    getAudioTime (resumeAudio (pauseAudio s h) h) h = getAudioTime s h
    ∧ (∃ ip, mget h (pauseAudio s h).instances = some ip
        ∧ ip.paused = true ∧ ip.pauseTime = s.now - i.startTime)
    ∧ (∃ ir, mget h (resumeAudio (pauseAudio s h) h).instances = some ir
        ∧ ir.paused = false ∧ ir.startTime = i.startTime) := by
  have hp : pauseAudio s h =
      { s with instances := mset h { i with paused := true, pauseTime := s.now - i.startTime } s.instances } := by
    simp [pauseAudio, hi, hpau, hsto]
  have hr : resumeAudio (pauseAudio s h) h =
      { s with instances := mset h { i with sourceNode := { buffer := src, loop := i.loop, playbackRate := i.pitch }, paused := false, pauseTime := s.now - i.startTime, startTime := s.now - (s.now - i.startTime) } (mset h { i with paused := true, pauseTime := s.now - i.startTime } s.instances) } := by
    rw [hp]
    simp [resumeAudio, mget_mset_self, hsto, hsrc]
  refine ⟨?_, ?_, ?_⟩
  · rw [hr]
    have harith : s.now - (s.now - (s.now - i.startTime)) = s.now - i.startTime := by ring
    simp [getAudioTime, mget_mset_self, hi, hpau, hsto, hsrc, harith]
  · rw [hp]
    exact ⟨_, mget_mset_self _ _ _, rfl, rfl⟩
  · rw [hr]
    refine ⟨_, mget_mset_self _ _ _, rfl, ?_⟩
    show s.now - (s.now - i.startTime) = i.startTime
    ring

/-- A basic play request used by several witnesses: source 1 on the master
bus, centered, unit volume and pitch, no looping, no delay, no callback. -/
def basicReq : PlayRequest where
  sourceHandle := 1
  busHandle := 1
  volume := 1
  pan := 0
  pitch := 1
  loop := false
  delay := 0
  isSpatial := false
  posX := 0
  posY := 0
  minDistance := 1
  maxDistance := 10
  hasCallback := false

/-- A concrete engine state with source 1 decoded (duration 4) and instance 1
playing it from `basicReq`. -/
def basicPlayingState : EngineState :=
  (playAudio (decodeComplete (loadAudio initState).2 1 4) basicReq).2

/-- The instance record stored at handle 1 in `basicPlayingState`. -/
def basicInstance : Instance where
  sourceHandle := 1
  sourceNode := { buffer := { duration := 4 }, loop := false, playbackRate := 1 }
  gainNode := { gain := 1 }
  pannerNode := none
  spatialPanner := none
  outputBus := 1
  busHandle := 1
  startTime := 0
  pauseTime := 0
  paused := false
  stopped := false
  loop := false
  volume := 1
  pitch := 1
  hasCallback := false

/-- C1 witness: the round trip evaluated on a concrete playing instance. -/
theorem pause_resume_preserves_get_time_witness :
    getAudioTime (resumeAudio (pauseAudio basicPlayingState 1) 1) 1
      = getAudioTime basicPlayingState 1 :=
  (pause_resume_preserves_get_time basicPlayingState 1 basicInstance { duration := 4 }
    (by norm_num [basicPlayingState, basicReq, basicInstance, playAudio, playAudioInternal,
      builtInstance, decodeComplete, loadAudio, initState, mget, mset])
    (by norm_num [basicInstance]) (by norm_num [basicInstance])
    (by norm_num [basicPlayingState, basicReq, basicInstance, playAudio, playAudioInternal,
      builtInstance, decodeComplete, loadAudio, initState, mget, mset])).1

/-- C4.  `getAudioTime` returns 0 on an unknown handle, `pauseTime` (the
pause offset) while paused, 0 while stopped, and otherwise
`elapsed = clock_now - startTime` reduced modulo the referenced source's
duration for a looping instance, or `min elapsed duration` for a non-looping
one. -/
theorem getAudioTime_spec (s : EngineState) (h : Nat) :
    (mget h s.instances = none → getAudioTime s h = 0)
    ∧ (∀ i, mget h s.instances = some i →
        (i.paused = true → getAudioTime s h = i.pauseTime)
        ∧ (i.paused = false → i.stopped = true → getAudioTime s h = 0)
        ∧ (∀ src, i.paused = false → i.stopped = false →
            mget i.sourceHandle s.sources = some src →
            getAudioTime s h =
              if i.loop then jsMod (s.now - i.startTime) src.duration
              else min (s.now - i.startTime) src.duration)) := by
  refine ⟨fun h0 => by simp [getAudioTime, h0], fun i hi => ⟨?_, ?_, ?_⟩⟩
  · intro hp
    simp [getAudioTime, hi, hp]
  · intro hp hs
    simp [getAudioTime, hi, hp, hs]
  · intro src hp hs hsrc
    simp [getAudioTime, hi, hp, hs, hsrc]

/-- C4 witness: the playing branch evaluated on a concrete instance. -/
theorem getAudioTime_spec_witness :
    getAudioTime basicPlayingState 1 =
      if basicInstance.loop then
        jsMod (basicPlayingState.now - basicInstance.startTime)
          ({ duration := 4 } : SourceAsset).duration
      else
        min (basicPlayingState.now - basicInstance.startTime)
          ({ duration := 4 } : SourceAsset).duration :=
  ((getAudioTime_spec basicPlayingState 1).2 basicInstance
    (by norm_num [basicPlayingState, basicReq, basicInstance, playAudio, playAudioInternal,
      builtInstance, decodeComplete, loadAudio, initState, mget, mset])).2.2
    { duration := 4 } rfl rfl
    (by norm_num [basicPlayingState, basicReq, basicInstance, playAudio, playAudioInternal,
      builtInstance, decodeComplete, loadAudio, initState, mget, mset])

/-- C5.  The rendering chain built at play (also used by deferred promotion)
has exactly one panner stage variant, mutually exclusively: a spatial
instance gets exactly one distance panner (linear model, rolloff 1, ref/max
distance from the request), a non-spatial instance with pan ≠ 0 gets exactly
one stereo panner, and a non-spatial instance with pan = 0 gets no panner
stage and connects the source straight to the gain node. -/
theorem panner_stage_trichotomy (req : PlayRequest) (src : SourceAsset)
    (s : EngineState) (h : Nat) :
    mget h (playAudioInternal h req src s).instances = some (builtInstance req src s)
    ∧ (req.isSpatial = true →
        (builtInstance req src s).spatialPanner =
          some { refDistance := req.minDistance, maxDistance := req.maxDistance,
                 rolloffFactor := 1, posX := req.posX, posY := req.posY }
        ∧ (builtInstance req src s).pannerNode = none
        ∧ (builtInstance req src s).pannerStageCount = 1)
    ∧ (req.isSpatial = false → req.pan ≠ 0 →
        (builtInstance req src s).pannerNode = some { pan := req.pan }
        ∧ (builtInstance req src s).spatialPanner = none
        ∧ (builtInstance req src s).pannerStageCount = 1)
    ∧ (req.isSpatial = false → req.pan = 0 →
        (builtInstance req src s).pannerNode = none
        ∧ (builtInstance req src s).spatialPanner = none
        ∧ (builtInstance req src s).pannerStageCount = 0
        ∧ (builtInstance req src s).directToGain = true) := by
  refine ⟨by simp [playAudioInternal, mget_mset_self], ?_, ?_, ?_⟩
  · intro hsp
    simp [builtInstance, Instance.pannerStageCount, hsp]
  · intro hsp hpan
    simp [builtInstance, Instance.pannerStageCount, hsp, hpan]
  · intro hsp hpan
    simp [builtInstance, Instance.pannerStageCount, Instance.directToGain, hsp, hpan]

/-- A spatial variant of `basicReq`. -/
def spatialReq : PlayRequest := { basicReq with isSpatial := true }

/-- A non-spatial, panned variant of `basicReq`. -/
def pannedReq : PlayRequest := { basicReq with pan := 1/2 }

/-- C5 witness: the three variants evaluated on concrete requests. -/
theorem panner_stage_trichotomy_witness :
    (builtInstance spatialReq { duration := 4 } initState).pannerStageCount = 1
    ∧ (builtInstance pannedReq { duration := 4 } initState).pannerStageCount = 1
    ∧ (builtInstance basicReq { duration := 4 } initState).pannerStageCount = 0 :=
  ⟨((panner_stage_trichotomy spatialReq { duration := 4 } initState 1).2.1 rfl).2.2,
   ((panner_stage_trichotomy pannedReq { duration := 4 } initState 1).2.2.1 rfl
      (by norm_num [pannedReq, basicReq])).2.2,
   ((panner_stage_trichotomy basicReq { duration := 4 } initState 1).2.2.2 rfl rfl).2.2.1⟩

/-- C6.  Muting a bus zeroes the effective gain while leaving the stored
volume untouched; `setAudioBusVolume` while muted updates the stored volume
without touching the gain; unmuting writes the stored volume back to the
gain node, so mute-then-unmute restores the pre-mute volume exactly even
without an intervening `setAudioBusVolume`. -/
theorem bus_mute_round_trip (s : EngineState) (b : Nat) (bus : Bus)
    (hb : mget b s.buses = some bus) :
    (∃ bm, mget b (setAudioBusMuted s b true).buses = some bm
       ∧ bm.muted = true ∧ bm.volume = bus.volume ∧ bm.gainNode.gain = 0)
    ∧ (∃ bu, mget b (setAudioBusMuted (setAudioBusMuted s b true) b false).buses = some bu
       ∧ bu.muted = false ∧ bu.volume = bus.volume ∧ bu.gainNode.gain = bus.volume)
    ∧ (∀ v, ∃ bv, mget b (setAudioBusVolume (setAudioBusMuted s b true) b v).buses = some bv
       ∧ bv.volume = v ∧ bv.gainNode.gain = 0 ∧ bv.muted = true)
    ∧ (∀ v, ∃ bw, mget b
          (setAudioBusMuted (setAudioBusVolume (setAudioBusMuted s b true) b v) b false).buses
          = some bw ∧ bw.gainNode.gain = v ∧ bw.muted = false ∧ bw.volume = v) := by
  have h1 : setAudioBusMuted s b true =
      { s with buses := mset b { bus with muted := true, gainNode := ({ gain := 0 } : GainNode) } s.buses } := by
    simp [setAudioBusMuted, hb]
  refine ⟨?_, ?_, ?_, ?_⟩
  · rw [h1]
    exact ⟨_, mget_mset_self _ _ _, rfl, rfl, rfl⟩
  · rw [h1]
    have h2 : setAudioBusMuted { s with buses := mset b { bus with muted := true, gainNode := ({ gain := 0 } : GainNode) } s.buses } b false =
        { s with buses := mset b { bus with muted := false, gainNode := ({ gain := bus.volume } : GainNode) } (mset b { bus with muted := true, gainNode := ({ gain := 0 } : GainNode) } s.buses) } := by
      simp [setAudioBusMuted, mget_mset_self]
    rw [h2]
    exact ⟨_, mget_mset_self _ _ _, rfl, rfl, rfl⟩
  · intro v
    rw [h1]
    have h3 : setAudioBusVolume { s with buses := mset b { bus with muted := true, gainNode := ({ gain := 0 } : GainNode) } s.buses } b v =
        { s with buses := mset b { bus with muted := true, volume := v, gainNode := ({ gain := 0 } : GainNode) } (mset b { bus with muted := true, gainNode := ({ gain := 0 } : GainNode) } s.buses) } := by
      simp [setAudioBusVolume, mget_mset_self]
    rw [h3]
    exact ⟨_, mget_mset_self _ _ _, rfl, rfl, rfl⟩
  · intro v
    rw [h1]
    have h3 : setAudioBusVolume { s with buses := mset b { bus with muted := true, gainNode := ({ gain := 0 } : GainNode) } s.buses } b v =
        { s with buses := mset b { bus with muted := true, volume := v, gainNode := ({ gain := 0 } : GainNode) } (mset b { bus with muted := true, gainNode := ({ gain := 0 } : GainNode) } s.buses) } := by
      simp [setAudioBusVolume, mget_mset_self]
    rw [h3]
    have h4 : setAudioBusMuted { s with buses := mset b { bus with muted := true, volume := v, gainNode := ({ gain := 0 } : GainNode) } (mset b { bus with muted := true, gainNode := ({ gain := 0 } : GainNode) } s.buses) } b false =
        { s with buses := mset b { bus with muted := false, volume := v, gainNode := ({ gain := v } : GainNode) } (mset b { bus with muted := true, volume := v, gainNode := ({ gain := 0 } : GainNode) } (mset b { bus with muted := true, gainNode := ({ gain := 0 } : GainNode) } s.buses)) } := by
      simp [setAudioBusMuted, mget_mset_self]
    rw [h4]
    exact ⟨_, mget_mset_self _ _ _, rfl, rfl, rfl⟩

/-- C6 witness: the round trip evaluated on the master bus of the initial
state. -/
theorem bus_mute_round_trip_witness :
    ∃ bu, mget 1 (setAudioBusMuted (setAudioBusMuted initState 1 true) 1 false).buses = some bu
      ∧ bu.muted = false ∧ bu.volume = (1 : ℚ) ∧ bu.gainNode.gain = (1 : ℚ) :=
  (bus_mute_round_trip initState 1 { gainNode := { gain := 1 }, volume := 1, muted := false }
    (by norm_num [initState, mget])).2.1

/-- C7 counterexample.  `setAudioPan` on an existing, playing, non-spatial
instance does not update any stored pan state: instance records carry no pan
field at all, and when the instance was created with pan = 0 there is no
stereo panner node either, so the call is a complete no-op — the state is
unchanged. -/
theorem setAudioPan_no_stored_pan_cex :
    setAudioPan basicPlayingState 1 (1/2) = basicPlayingState
    ∧ isAudioPlaying basicPlayingState 1 = true
    ∧ (mget 1 basicPlayingState.instances).map Instance.pannerNode = some none
    ∧ (mget 1 basicPlayingState.instances).map Instance.spatialPanner = some none := by
  have hi : mget 1 basicPlayingState.instances = some basicInstance := by
    norm_num [basicPlayingState, basicReq, basicInstance, playAudio, playAudioInternal,
      builtInstance, decodeComplete, loadAudio, initState, mget, mset]
  refine ⟨?_, ?_, ?_, ?_⟩
  · simp [setAudioPan, hi, basicInstance]
  · simp [isAudioPlaying, hi, basicInstance]
  · simp [hi, basicInstance]
  · simp [hi, basicInstance]

/-- C7 as amended.  `setAudioVolume`, `setAudioPitch` and `setAudioLooping`
mutate the stored field of the instance record and push the value to the live
rendering node; `setAudioPan` and `setAudioPosition` store nothing and only
write the live stereo panner / spatial panner when the instance owns one,
and are complete no-ops otherwise (pan on a spatial or unpanned instance,
position on a non-spatial one); all five are no-ops on unknown handles. -/
theorem live_control_semantics (s : EngineState) (h : Nat) (i : Instance)
    (hi : mget h s.instances = some i) :
    (∀ v, mget h (setAudioVolume s h v).instances =
        some { i with volume := v, gainNode := ({ gain := v } : GainNode) })
    ∧ (∀ p, i.pannerNode = none → setAudioPan s h p = s)
    ∧ (∀ p pn, i.pannerNode = some pn → mget h (setAudioPan s h p).instances =
        some { i with pannerNode := some ({ pan := p } : StereoPanner) })
    ∧ (∀ p, mget h (setAudioPitch s h p).instances =
        some { i with pitch := p, sourceNode := { i.sourceNode with playbackRate := p } })
    ∧ (∀ b, mget h (setAudioLooping s h b).instances =
        some { i with loop := b, sourceNode := { i.sourceNode with loop := b } })
    ∧ (∀ x y, i.spatialPanner = none → setAudioPosition s h x y = s)
    ∧ (∀ x y sp, i.spatialPanner = some sp → mget h (setAudioPosition s h x y).instances =
        some { i with spatialPanner := some { sp with posX := x, posY := y } })
    ∧ (∀ h' v p b x y, mget h' s.instances = none →
        setAudioVolume s h' v = s ∧ setAudioPan s h' p = s ∧ setAudioPitch s h' p = s
        ∧ setAudioLooping s h' b = s ∧ setAudioPosition s h' x y = s) := by
  refine ⟨?_, ?_, ?_, ?_, ?_, ?_, ?_, ?_⟩
  · intro v
    simp [setAudioVolume, hi, mget_mset_self]
  · intro p hpn
    simp [setAudioPan, hi, hpn]
  · intro p pn hpn
    simp [setAudioPan, hi, hpn, mget_mset_self]
  · intro p
    simp [setAudioPitch, hi, mget_mset_self]
  · intro b
    simp [setAudioLooping, hi, mget_mset_self]
  · intro x y hsp
    simp [setAudioPosition, hi, hsp]
  · intro x y sp hsp
    simp [setAudioPosition, hi, hsp, mget_mset_self]
  · intro h' v p b x y h0
    exact ⟨by simp [setAudioVolume, h0], by simp [setAudioPan, h0],
      by simp [setAudioPitch, h0], by simp [setAudioLooping, h0],
      by simp [setAudioPosition, h0]⟩

/-- C7 witness: volume stores and pushes, pan is a no-op on the unpanned
concrete instance. -/
theorem live_control_semantics_witness :
    mget 1 (setAudioVolume basicPlayingState 1 (1/2)).instances =
      some { basicInstance with volume := 1/2, gainNode := ({ gain := 1/2 } : GainNode) }
    ∧ setAudioPan basicPlayingState 1 (1/2) = basicPlayingState := by
  have hi : mget 1 basicPlayingState.instances = some basicInstance := by
    norm_num [basicPlayingState, basicReq, basicInstance, playAudio, playAudioInternal,
      builtInstance, decodeComplete, loadAudio, initState, mget, mset]
  exact ⟨(live_control_semantics basicPlayingState 1 basicInstance hi).1 (1/2),
    (live_control_semantics basicPlayingState 1 basicInstance hi).2.1 (1/2) rfl⟩

/-- C8.  Every per-handle mutating operation on a handle missing from its
registry (instance, source, or bus) leaves the whole engine state unchanged,
and every query on such a handle returns its documented default: 0 for
`getAudioTime` and `getAudioDuration`, false for `isAudioPlaying`,
`isAudioPaused` and `isAudioBusMuted`, and 1.0 for `getAudioBusVolume`. -/
theorem unknown_handle_noop_defaults (s : EngineState) (h : Nat) :
    (mget h s.instances = none →
      stopAudio s h = s ∧ pauseAudio s h = s ∧ resumeAudio s h = s
      ∧ (∀ v, setAudioVolume s h v = s) ∧ (∀ p, setAudioPan s h p = s)
      ∧ (∀ p, setAudioPitch s h p = s) ∧ (∀ b, setAudioLooping s h b = s)
      ∧ (∀ x y, setAudioPosition s h x y = s)
      ∧ isAudioPlaying s h = false ∧ isAudioPaused s h = false ∧ getAudioTime s h = 0)
    ∧ (mget h s.sources = none → destroyAudio s h = s ∧ getAudioDuration s h = 0)
    ∧ (mget h s.buses = none →
      destroyAudioBus s h = s ∧ (∀ v, setAudioBusVolume s h v = s)
      ∧ (∀ m, setAudioBusMuted s h m = s)
      ∧ getAudioBusVolume s h = 1 ∧ isAudioBusMuted s h = false) := by
  refine ⟨?_, ?_, ?_⟩
  · intro h0
    refine ⟨by simp [stopAudio, h0], by simp [pauseAudio, h0], by simp [resumeAudio, h0],
      fun v => by simp [setAudioVolume, h0], fun p => by simp [setAudioPan, h0],
      fun p => by simp [setAudioPitch, h0], fun b => by simp [setAudioLooping, h0],
      fun x y => by simp [setAudioPosition, h0],
      by simp [isAudioPlaying, h0], by simp [isAudioPaused, h0], by simp [getAudioTime, h0]⟩
  · intro h0
    refine ⟨?_, by simp [getAudioDuration, h0]⟩
    show { s with sources := mdel h s.sources } = s
    rw [mdel_of_mget_none h0]
  · intro h0
    refine ⟨?_, fun v => by simp [setAudioBusVolume, h0],
      fun m => by simp [setAudioBusMuted, h0],
      by simp [getAudioBusVolume, h0], by simp [isAudioBusMuted, h0]⟩
    by_cases hb : h ≤ 1
    · simp [destroyAudioBus, hb]
    · simp [destroyAudioBus, hb, h0]

/-- C8 witness: unknown handle 5 on the initial state. -/
theorem unknown_handle_noop_defaults_witness :
    stopAudio initState 5 = initState
    ∧ getAudioTime initState 5 = 0
    ∧ destroyAudio initState 5 = initState
    ∧ getAudioDuration initState 5 = 0
    ∧ destroyAudioBus initState 5 = initState
    ∧ getAudioBusVolume initState 5 = 1 :=
  ⟨((unknown_handle_noop_defaults initState 5).1 rfl).1,
   ((unknown_handle_noop_defaults initState 5).1 rfl).2.2.2.2.2.2.2.2.2.2,
   ((unknown_handle_noop_defaults initState 5).2.1 rfl).1,
   ((unknown_handle_noop_defaults initState 5).2.1 rfl).2,
   ((unknown_handle_noop_defaults initState 5).2.2 (by norm_num [initState, mget])).1,
   ((unknown_handle_noop_defaults initState 5).2.2 (by norm_num [initState, mget])).2.2.2.1⟩

/-- C9.  A play with a positive delay sets `startTime = clock_now + delay`;
a `getAudioTime` query before the clock reaches that start time returns a
negative value for a non-looping instance (elapsed is negative and
`min elapsed duration` keeps it negative), not 0. -/
theorem get_time_negative_before_delayed_start
    (s : EngineState) (req : PlayRequest) (src : SourceAsset) (t : ℚ)
    (hsrc : mget req.sourceHandle s.sources = some src)
    (hloop : req.loop = false) (hdur : 0 ≤ src.duration)
    (hdelay : 0 < req.delay) (ht : t < s.now + req.delay) :
    getAudioTime { (playAudio s req).2 with now := t } (playAudio s req).1 < 0
    ∧ (∃ i, mget (playAudio s req).1 (playAudio s req).2.instances = some i
        ∧ i.startTime = s.now + req.delay) := by
  have hp : playAudio s req =
      (s.nextInstanceHandle, playAudioInternal s.nextInstanceHandle req src { s with nextInstanceHandle := s.nextInstanceHandle + 1 }) := by
    simp [playAudio, hsrc]
  rw [hp]
  constructor
  · simp [getAudioTime, playAudioInternal, mget_mset_self, builtInstance, hloop, hsrc]
    exact Or.inl ht
  · refine ⟨_, by simp [playAudioInternal]; exact mget_mset_self _ _ _, ?_⟩
    simp [builtInstance]

/-- A state with source 1 decoded at duration 4 and nothing playing. -/
def decodedState : EngineState := decodeComplete (loadAudio initState).2 1 4

/-- C9 witness: delay 2, queried at time 1, before the start time. -/
theorem get_time_negative_before_delayed_start_witness :
    getAudioTime
      { (playAudio decodedState { basicReq with delay := 2 }).2 with now := 1 }
      (playAudio decodedState { basicReq with delay := 2 }).1 < 0 :=
  (get_time_negative_before_delayed_start decodedState { basicReq with delay := 2 }
    { duration := 4 } 1
    (by norm_num [decodedState, basicReq, decodeComplete, loadAudio, initState, mget, mset])
    rfl (by norm_num) (by norm_num [basicReq])
    (by norm_num [decodedState, basicReq, decodeComplete, loadAudio, initState])).1

theorem sweepLoop_fields (l : List PendingPlay) (s : EngineState) :
    (sweepLoop l s).1.nextSourceHandle = s.nextSourceHandle
    ∧ (sweepLoop l s).1.nextInstanceHandle = s.nextInstanceHandle
    ∧ (sweepLoop l s).1.nextBusHandle = s.nextBusHandle
    ∧ (sweepLoop l s).1.sources = s.sources
    ∧ (sweepLoop l s).1.pendingDecodes = s.pendingDecodes
    ∧ (sweepLoop l s).1.buses = s.buses
    ∧ (sweepLoop l s).1.finishedCallbacks = s.finishedCallbacks
    ∧ (sweepLoop l s).1.pendingPlays = s.pendingPlays
    ∧ (sweepLoop l s).1.now = s.now := by
  induction l generalizing s with
  | nil => simp [sweepLoop]
  | cons p rest ih =>
    rw [sweepLoop]
    cases hsrc : mget p.req.sourceHandle s.sources with
    | some src =>
      simpa [playAudioInternal] using ih (playAudioInternal p.handle p.req src s)
    | none =>
      by_cases hr : p.retries + 1 < 10
      · simpa [hr] using ih s
      · simpa [hr] using ih s

theorem sweepLoop_keep_ne {h : Nat} (l : List PendingPlay) (s : EngineState)
    (hno : ∀ p ∈ l, p.handle ≠ h) :
    ∀ q ∈ (sweepLoop l s).2, q.handle ≠ h := by
  induction l generalizing s with
  | nil => simp [sweepLoop]
  | cons p rest ih =>
    rw [sweepLoop]
    have hrest : ∀ p' ∈ rest, p'.handle ≠ h :=
      fun p' hp' => hno p' (List.mem_cons_of_mem _ hp')
    cases hsrc : mget p.req.sourceHandle s.sources with
    | some src => exact ih (playAudioInternal p.handle p.req src s) hrest
    | none =>
      by_cases hr : p.retries + 1 < 10
      · simp only [hr, if_true]
        intro q hq
        rcases List.mem_cons.mp hq with hq | hq
        · subst hq
          exact hno p (List.mem_cons_self _ _)
        · exact ih s hrest q hq
      · simp only [hr, if_false]
        exact ih s hrest

theorem sweepLoop_mget_none {h : Nat} (l : List PendingPlay) (s : EngineState)
    (hno : ∀ p ∈ l, p.handle ≠ h) (h0 : mget h s.instances = none) :
    mget h (sweepLoop l s).1.instances = none := by
  induction l generalizing s with
  | nil => simpa [sweepLoop] using h0
  | cons p rest ih =>
    rw [sweepLoop]
    have hrest : ∀ p' ∈ rest, p'.handle ≠ h :=
      fun p' hp' => hno p' (List.mem_cons_of_mem _ hp')
    cases hsrc : mget p.req.sourceHandle s.sources with
    | some src =>
      refine ih (playAudioInternal p.handle p.req src s) hrest ?_
      have hne : h ≠ p.handle := fun he => hno p (List.mem_cons_self _ _) he.symm
      simpa [playAudioInternal, mget_mset_ne hne] using h0
    | none =>
      by_cases hr : p.retries + 1 < 10
      · simpa [hr] using ih s hrest h0
      · simpa [hr] using ih s hrest h0

theorem sweepLoop_mget_some {h : Nat} {i : Instance} (l : List PendingPlay) (s : EngineState)
    (hno : ∀ p ∈ l, p.handle ≠ h) (h0 : mget h s.instances = some i) :
    mget h (sweepLoop l s).1.instances = some i := by
  induction l generalizing s with
  | nil => simpa [sweepLoop] using h0
  | cons p rest ih =>
    rw [sweepLoop]
    have hrest : ∀ p' ∈ rest, p'.handle ≠ h :=
      fun p' hp' => hno p' (List.mem_cons_of_mem _ hp')
    cases hsrc : mget p.req.sourceHandle s.sources with
    | some src =>
      refine ih (playAudioInternal p.handle p.req src s) hrest ?_
      have hne : h ≠ p.handle := fun he => hno p (List.mem_cons_self _ _) he.symm
      simpa [playAudioInternal, mget_mset_ne hne] using h0
    | none =>
      by_cases hr : p.retries + 1 < 10
      · simpa [hr] using ih s hrest h0
      · simpa [hr] using ih s hrest h0

/-- Handle freshness: `h` is an instance handle that is below the allocation
counter, absent from the instance table, and not reserved by any pending
play.  Such a handle can never be (re)used by any valid operation. -/
def FreshI (h : Nat) (s : EngineState) : Prop :=
  mget h s.instances = none ∧ h < s.nextInstanceHandle
    ∧ ∀ p ∈ s.pendingPlays, p.handle ≠ h

theorem mget_mdel_none {k k' : Nat} {m : List (Nat × α)}
    (h : mget k m = none) : mget k (mdel k' m) = none := by
  by_cases hk : k = k'
  · subst hk
    exact mget_mdel_self k m
  · rw [mget_mdel_ne hk]
    exact h

theorem mget_mdel_some {k k' : Nat} {v : α} {m : List (Nat × α)}
    (hne : k ≠ k') (h : mget k m = some v) : mget k (mdel k' m) = some v := by
  rw [mget_mdel_ne hne]
  exact h

theorem fresh_step {h : Nat} (s : EngineState) (op : Op)
    (hv : validOp s op = true) (hf : FreshI h s) : FreshI h (step s op) := by
  obtain ⟨h0, hlt, hpend⟩ := hf
  cases op with
  | load => exact ⟨h0, hlt, hpend⟩
  | decoded h' d => exact ⟨h0, hlt, hpend⟩
  | decodeFail h' => exact ⟨h0, hlt, hpend⟩
  | destroySource h' => exact ⟨h0, hlt, hpend⟩
  | play req =>
    simp only [step, playAudio]
    cases hsrc : mget req.sourceHandle s.sources with
    | none =>
      refine ⟨h0, Nat.lt_succ_of_lt hlt, ?_⟩
      intro p hp
      rcases List.mem_append.mp hp with hp | hp
      · exact hpend p hp
      · rcases List.mem_singleton.mp hp with rfl
        exact fun he => absurd he.symm (Nat.ne_of_lt hlt)
    | some src =>
      refine ⟨?_, Nat.lt_succ_of_lt hlt, hpend⟩
      have hne : h ≠ s.nextInstanceHandle := Nat.ne_of_lt hlt
      simpa [playAudioInternal, mget_mset_ne hne] using h0
  | stop h' =>
    simp only [step, stopAudio]
    cases hi : mget h' s.instances with
    | none => exact ⟨h0, hlt, hpend⟩
    | some i => exact ⟨mget_mdel_none h0, hlt, hpend⟩
  | pause h' =>
    simp only [step, pauseAudio]
    cases hi : mget h' s.instances with
    | none => exact ⟨h0, hlt, hpend⟩
    | some i =>
      have hne : h ≠ h' := fun he => by rw [he, hi] at h0; exact Option.noConfusion h0
      by_cases hc : i.paused || i.stopped
      · simp only [hc, if_true]
        exact ⟨h0, hlt, hpend⟩
      · simp only [hc, if_false]
        exact ⟨by simpa [mget_mset_ne hne] using h0, hlt, hpend⟩
  | resume h' =>
    simp only [step, resumeAudio]
    cases hi : mget h' s.instances with
    | none => exact ⟨h0, hlt, hpend⟩
    | some i =>
      have hne : h ≠ h' := fun he => by rw [he, hi] at h0; exact Option.noConfusion h0
      by_cases hc : !i.paused || i.stopped
      · simp only [hc, if_true]
        exact ⟨h0, hlt, hpend⟩
      · simp only [hc, if_false]
        cases hs2 : mget i.sourceHandle s.sources with
        | none => exact ⟨h0, hlt, hpend⟩
        | some src =>
          exact ⟨by simpa [mget_mset_ne hne] using h0, hlt, hpend⟩
  | stopAll bus =>
    exact ⟨mget_filter_none _ h0, hlt, hpend⟩
  | setVolume h' v =>
    simp only [step, setAudioVolume]
    cases hi : mget h' s.instances with
    | none => exact ⟨h0, hlt, hpend⟩
    | some i =>
      have hne : h ≠ h' := fun he => by rw [he, hi] at h0; exact Option.noConfusion h0
      exact ⟨by simpa [mget_mset_ne hne] using h0, hlt, hpend⟩
  | setPan h' p =>
    cases hi : mget h' s.instances with
    | none =>
      simp only [step, setAudioPan, hi]
      exact ⟨h0, hlt, hpend⟩
    | some i =>
      have hne : h ≠ h' := fun he => by rw [he, hi] at h0; exact Option.noConfusion h0
      cases hpn : i.pannerNode with
      | none =>
        simp only [step, setAudioPan, hi, hpn]
        exact ⟨h0, hlt, hpend⟩
      | some pn =>
        simp only [step, setAudioPan, hi, hpn]
        exact ⟨by simpa [mget_mset_ne hne] using h0, hlt, hpend⟩
  | setPitch h' p =>
    simp only [step, setAudioPitch]
    cases hi : mget h' s.instances with
    | none => exact ⟨h0, hlt, hpend⟩
    | some i =>
      have hne : h ≠ h' := fun he => by rw [he, hi] at h0; exact Option.noConfusion h0
      exact ⟨by simpa [mget_mset_ne hne] using h0, hlt, hpend⟩
  | setLooping h' b =>
    simp only [step, setAudioLooping]
    cases hi : mget h' s.instances with
    | none => exact ⟨h0, hlt, hpend⟩
    | some i =>
      have hne : h ≠ h' := fun he => by rw [he, hi] at h0; exact Option.noConfusion h0
      exact ⟨by simpa [mget_mset_ne hne] using h0, hlt, hpend⟩
  | setPosition h' x y =>
    cases hi : mget h' s.instances with
    | none =>
      simp only [step, setAudioPosition, hi]
      exact ⟨h0, hlt, hpend⟩
    | some i =>
      have hne : h ≠ h' := fun he => by rw [he, hi] at h0; exact Option.noConfusion h0
      cases hsp : i.spatialPanner with
      | none =>
        simp only [step, setAudioPosition, hi, hsp]
        exact ⟨h0, hlt, hpend⟩
      | some sp =>
        simp only [step, setAudioPosition, hi, hsp]
        exact ⟨by simpa [mget_mset_ne hne] using h0, hlt, hpend⟩
  | createBus => exact ⟨h0, hlt, hpend⟩
  | destroyBus h' =>
    simp only [step, destroyAudioBus]
    by_cases hb : h' ≤ 1
    · simp only [hb, if_true]
      exact ⟨h0, hlt, hpend⟩
    · simp only [hb, if_false]
      cases hbb : mget h' s.buses with
      | none => exact ⟨h0, hlt, hpend⟩
      | some bus => exact ⟨h0, hlt, hpend⟩
  | setBusVolume h' v =>
    simp only [step, setAudioBusVolume]
    cases hbb : mget h' s.buses with
    | none => exact ⟨h0, hlt, hpend⟩
    | some bus => exact ⟨h0, hlt, hpend⟩
  | setBusMuted h' m =>
    simp only [step, setAudioBusMuted]
    cases hbb : mget h' s.buses with
    | none => exact ⟨h0, hlt, hpend⟩
    | some bus => exact ⟨h0, hlt, hpend⟩
  | setListener x y => exact ⟨h0, hlt, hpend⟩
  | ended h' =>
    simp only [step, endedEvent]
    cases hi : mget h' s.instances with
    | none => exact ⟨h0, hlt, hpend⟩
    | some i =>
      have hne : h ≠ h' := fun he => by rw [he, hi] at h0; exact Option.noConfusion h0
      by_cases hc : !i.stopped && !i.loop
      · simp only [hc, if_true]
        exact ⟨mget_mdel_none h0, hlt, hpend⟩
      · simp only [hc, if_false]
        exact ⟨h0, hlt, hpend⟩
  | sweep =>
    simp only [step, processPendingPlays]
    have hfields := sweepLoop_fields s.pendingPlays { s with pendingPlays := [] }
    refine ⟨?_, ?_, ?_⟩
    · exact sweepLoop_mget_none _ _ hpend h0
    · simpa [hfields.2.1] using hlt
    · exact sweepLoop_keep_ne _ _ hpend
  | poll =>
    simp only [step, pollFinishedCallback]
    cases hq : s.finishedCallbacks with
    | nil => exact ⟨h0, hlt, hpend⟩
    | cons x rest => exact ⟨h0, hlt, hpend⟩
  | advanceClock d => exact ⟨h0, hlt, hpend⟩

theorem step_finished (s : EngineState) (op : Op) :
    (step s op).finishedCallbacks = s.finishedCallbacks
    ∨ (∃ h', mget h' s.instances ≠ none
        ∧ (step s op).finishedCallbacks = s.finishedCallbacks ++ [h'])
    ∨ (step s op).finishedCallbacks = s.finishedCallbacks.tail := by
  cases op with
  | load => exact Or.inl rfl
  | decoded h' d => exact Or.inl rfl
  | decodeFail h' => exact Or.inl rfl
  | destroySource h' => exact Or.inl rfl
  | play req =>
    cases hsrc : mget req.sourceHandle s.sources with
    | none => exact Or.inl (by simp [step, playAudio, hsrc])
    | some src => exact Or.inl (by simp [step, playAudio, hsrc, playAudioInternal])
  | stop h' =>
    cases hi : mget h' s.instances with
    | none => exact Or.inl (by simp [step, stopAudio, hi])
    | some i => exact Or.inl (by simp [step, stopAudio, hi])
  | pause h' =>
    cases hi : mget h' s.instances with
    | none => exact Or.inl (by simp [step, pauseAudio, hi])
    | some i =>
      by_cases hc : i.paused || i.stopped
      · exact Or.inl (by simp [step, pauseAudio, hi, hc])
      · exact Or.inl (by simp [step, pauseAudio, hi, hc])
  | resume h' =>
    cases hi : mget h' s.instances with
    | none => exact Or.inl (by simp [step, resumeAudio, hi])
    | some i =>
      by_cases hc : !i.paused || i.stopped
      · exact Or.inl (by simp [step, resumeAudio, hi, hc])
      · cases hs2 : mget i.sourceHandle s.sources with
        | none => exact Or.inl (by simp [step, resumeAudio, hi, hc, hs2])
        | some src => exact Or.inl (by simp [step, resumeAudio, hi, hc, hs2])
  | stopAll bus => exact Or.inl rfl
  | setVolume h' v =>
    cases hi : mget h' s.instances with
    | none => exact Or.inl (by simp [step, setAudioVolume, hi])
    | some i => exact Or.inl (by simp [step, setAudioVolume, hi])
  | setPan h' p =>
    cases hi : mget h' s.instances with
    | none => exact Or.inl (by simp [step, setAudioPan, hi])
    | some i =>
      cases hpn : i.pannerNode with
      | none => exact Or.inl (by simp [step, setAudioPan, hi, hpn])
      | some pn => exact Or.inl (by simp [step, setAudioPan, hi, hpn])
  | setPitch h' p =>
    cases hi : mget h' s.instances with
    | none => exact Or.inl (by simp [step, setAudioPitch, hi])
    | some i => exact Or.inl (by simp [step, setAudioPitch, hi])
  | setLooping h' b =>
    cases hi : mget h' s.instances with
    | none => exact Or.inl (by simp [step, setAudioLooping, hi])
    | some i => exact Or.inl (by simp [step, setAudioLooping, hi])
  | setPosition h' x y =>
    cases hi : mget h' s.instances with
    | none => exact Or.inl (by simp [step, setAudioPosition, hi])
    | some i =>
      cases hsp : i.spatialPanner with
      | none => exact Or.inl (by simp [step, setAudioPosition, hi, hsp])
      | some sp => exact Or.inl (by simp [step, setAudioPosition, hi, hsp])
  | createBus => exact Or.inl rfl
  | destroyBus h' =>
    by_cases hb : h' ≤ 1
    · exact Or.inl (by simp [step, destroyAudioBus, hb])
    · cases hbb : mget h' s.buses with
      | none => exact Or.inl (by simp [step, destroyAudioBus, hb, hbb])
      | some bus => exact Or.inl (by simp [step, destroyAudioBus, hb, hbb])
  | setBusVolume h' v =>
    cases hbb : mget h' s.buses with
    | none => exact Or.inl (by simp [step, setAudioBusVolume, hbb])
    | some bus => exact Or.inl (by simp [step, setAudioBusVolume, hbb])
  | setBusMuted h' m =>
    cases hbb : mget h' s.buses with
    | none => exact Or.inl (by simp [step, setAudioBusMuted, hbb])
    | some bus => exact Or.inl (by simp [step, setAudioBusMuted, hbb])
  | setListener x y => exact Or.inl rfl
  | ended h' =>
    cases hi : mget h' s.instances with
    | none => exact Or.inl (by simp [step, endedEvent, hi])
    | some i =>
      by_cases hc : !i.stopped && !i.loop
      · by_cases hcb : i.hasCallback
        · refine Or.inr (Or.inl ⟨h', by simp [hi], ?_⟩)
          simp [step, endedEvent, hi, hc, hcb]
        · exact Or.inl (by simp [step, endedEvent, hi, hc, hcb])
      · exact Or.inl (by simp [step, endedEvent, hi, hc])
  | sweep =>
    refine Or.inl ?_
    have hfields := sweepLoop_fields s.pendingPlays { s with pendingPlays := [] }
    simp [step, processPendingPlays, hfields.2.2.2.2.2.2.1]
  | poll =>
    cases hq : s.finishedCallbacks with
    | nil => exact Or.inl (by simp [step, pollFinishedCallback, hq])
    | cons x rest => exact Or.inr (Or.inr (by simp [step, pollFinishedCallback, hq]))
  | advanceClock d => exact Or.inl rfl

theorem step_count_le {h : Nat} (s : EngineState) (op : Op)
    (hf : FreshI h s) :
    ((step s op).finishedCallbacks.count h) ≤ s.finishedCallbacks.count h := by
  rcases step_finished s op with he | ⟨h', hne, he⟩ | he
  · rw [he]
  · rw [he, List.count_append]
    have hne' : h ≠ h' := fun heq => hne (heq ▸ hf.1)
    simp [List.count_cons, hne']
  · rw [he]
    cases hq : s.finishedCallbacks with
    | nil => simp
    | cons x rest =>
      simp only [List.tail_cons, List.count_cons]
      omega

theorem run_fresh {h : Nat} : ∀ (ops : List Op) (s : EngineState),
    FreshI h s → validTrace s ops = true → FreshI h (run s ops)
  | [], _, hf, _ => hf
  | op :: ops, s, hf, hv => by
    rw [run]
    rw [validTrace, Bool.and_eq_true] at hv
    exact run_fresh ops (step s op) (fresh_step s op hv.1 hf) hv.2

theorem run_count_le {h : Nat} : ∀ (ops : List Op) (s : EngineState),
    FreshI h s → validTrace s ops = true →
    (run s ops).finishedCallbacks.count h ≤ s.finishedCallbacks.count h
  | [], _, _, _ => Nat.le_refl _
  | op :: ops, s, hf, hv => by
    rw [run]
    rw [validTrace, Bool.and_eq_true] at hv
    exact Nat.le_trans
      (run_count_le ops (step s op) (fresh_step s op hv.1 hf) hv.2)
      (step_count_le s op hf)

/-- C2.  A handle is pushed onto the finished-callback queue only by the
natural end-of-buffer event of a non-looping instance created with
`hasCallback = true`, and then exactly once: the push removes the instance
from the table, the handle is fresh from then on, and no valid continuation
can push it again.  Explicit `stopAudio`/`stopAllAudio` never push and an
explicit stop precludes any later ended event for the handle; a looping
instance never fires natural completion, and even its handler would push
nothing. -/
theorem finished_event_channel_spec (s : EngineState) (h : Nat) (i : Instance)
    (hi : mget h s.instances = some i) :
    (i.paused = false → i.stopped = false → i.loop = false → i.hasCallback = true →
      (endedEvent s h).finishedCallbacks = s.finishedCallbacks ++ [h]
      ∧ mget h (endedEvent s h).instances = none
      ∧ validOp s (Op.ended h) = true)
    ∧ (i.hasCallback = false → i.stopped = false → i.loop = false →
      (endedEvent s h).finishedCallbacks = s.finishedCallbacks
      ∧ mget h (endedEvent s h).instances = none)
    ∧ (i.loop = true →
      validOp s (Op.ended h) = false
      ∧ (endedEvent s h).finishedCallbacks = s.finishedCallbacks)
    ∧ ((stopAudio s h).finishedCallbacks = s.finishedCallbacks
      ∧ (∀ b, (stopAllAudio s b).finishedCallbacks = s.finishedCallbacks)
      ∧ validOp (stopAudio s h) (Op.ended h) = false)
    ∧ (i.paused = false → i.stopped = false → i.loop = false → i.hasCallback = true →
      h < s.nextInstanceHandle → (∀ p ∈ s.pendingPlays, p.handle ≠ h) →
      s.finishedCallbacks.count h = 0 →
      (endedEvent s h).finishedCallbacks.count h = 1
      ∧ ∀ ops, validTrace (endedEvent s h) ops = true →
          (run (endedEvent s h) ops).finishedCallbacks.count h ≤ 1) := by
  refine ⟨?_, ?_, ?_, ?_, ?_⟩
  · intro hp hst hl hcb
    refine ⟨by simp [endedEvent, hi, hst, hl, hcb], ?_, by simp [validOp, hi, hp, hst, hl]⟩
    simp [endedEvent, hi, hst, hl, mget_mdel_self]
  · intro hcb hst hl
    refine ⟨by simp [endedEvent, hi, hst, hl, hcb], ?_⟩
    simp [endedEvent, hi, hst, hl, hcb, mget_mdel_self]
  · intro hl
    exact ⟨by simp [validOp, hi, hl], by simp [endedEvent, hi, hl]⟩
  · refine ⟨by simp [stopAudio, hi], fun b => rfl, ?_⟩
    simp [validOp, stopAudio, hi, mget_mdel_self]
  · intro hp hst hl hcb hlt hpend hcount
    have hpush : (endedEvent s h).finishedCallbacks = s.finishedCallbacks ++ [h] := by
      simp [endedEvent, hi, hst, hl, hcb]
    have hcount1 : (endedEvent s h).finishedCallbacks.count h = 1 := by
      rw [hpush, List.count_append, hcount]
      simp
    refine ⟨hcount1, fun ops hv => ?_⟩
    have hfresh : FreshI h (endedEvent s h) := by
      refine ⟨by simp [endedEvent, hi, hst, hl, mget_mdel_self], ?_, ?_⟩
      · simpa [endedEvent, hi, hst, hl] using hlt
      · intro p hp'
        refine hpend p ?_
        simpa [endedEvent, hi, hst, hl] using hp'
    calc (run (endedEvent s h) ops).finishedCallbacks.count h
        ≤ (endedEvent s h).finishedCallbacks.count h := run_count_le ops _ hfresh hv
      _ = 1 := hcount1

/-- A callback-enabled variant of `basicReq`. -/
def callbackReq : PlayRequest := { basicReq with hasCallback := true }

/-- A state with source 1 decoded and instance 1 playing it with the
callback flag set. -/
def callbackState : EngineState := (playAudio decodedState callbackReq).2

/-- The instance stored at handle 1 in `callbackState`. -/
def callbackInstance : Instance := { basicInstance with hasCallback := true }

/-- C2 witness: natural completion of the concrete callback instance pushes
its handle once, and a valid continuation keeps the count at most one. -/
theorem finished_event_channel_spec_witness :
    (endedEvent callbackState 1).finishedCallbacks = callbackState.finishedCallbacks ++ [1]
    ∧ (endedEvent callbackState 1).finishedCallbacks.count 1 = 1
    ∧ (run (endedEvent callbackState 1) [Op.poll]).finishedCallbacks.count 1 ≤ 1 := by
  have hi : mget 1 callbackState.instances = some callbackInstance := by
    norm_num [callbackState, callbackReq, callbackInstance, basicReq, basicInstance,
      decodedState, playAudio, playAudioInternal, builtInstance, decodeComplete,
      loadAudio, initState, mget, mset]
  have hlt : 1 < callbackState.nextInstanceHandle := by
    norm_num [callbackState, callbackReq, basicReq, decodedState, playAudio,
      playAudioInternal, builtInstance, decodeComplete, loadAudio, initState, mget, mset]
  have hpend : ∀ p ∈ callbackState.pendingPlays, p.handle ≠ 1 := by
    intro p hp
    simp [callbackState, callbackReq, basicReq, decodedState, playAudio,
      playAudioInternal, builtInstance, decodeComplete, loadAudio, initState,
      mget, mset] at hp
  have hcount : callbackState.finishedCallbacks.count 1 = 0 := by
    norm_num [callbackState, callbackReq, basicReq, decodedState, playAudio,
      playAudioInternal, builtInstance, decodeComplete, loadAudio, initState, mget, mset]
  have hmain := finished_event_channel_spec callbackState 1 callbackInstance hi
  refine ⟨(hmain.1 rfl rfl rfl rfl).1, ?_, ?_⟩
  · exact (hmain.2.2.2.2 rfl rfl rfl rfl hlt hpend hcount).1
  · refine (hmain.2.2.2.2 rfl rfl rfl rfl hlt hpend hcount).2 [Op.poll] ?_
    simp [validTrace, validOp]

theorem processPendingPlays_singleton_not_ready (s' : EngineState) (p : PendingPlay)
    (hq : s'.pendingPlays = [p]) (hs : mget p.req.sourceHandle s'.sources = none) :
    processPendingPlays s' =
      if p.retries + 1 < 10 then
        { s' with pendingPlays := [{ p with retries := p.retries + 1 }] }
      else { s' with pendingPlays := [] } := by
  by_cases hr : p.retries + 1 < 10
  · simp [processPendingPlays, hq, sweepLoop, hs, hr]
  · simp [processPendingPlays, hq, sweepLoop, hs, hr]

theorem sweep_iter_not_ready (s' : EngineState) (p : PendingPlay)
    (hq : s'.pendingPlays = [p]) (hs : mget p.req.sourceHandle s'.sources = none) :
    ∀ n, p.retries + n ≤ 9 →
      processPendingPlays^[n] s' =
        { s' with pendingPlays := [{ p with retries := p.retries + n }] } := by
  intro n
  induction n with
  | zero =>
    intro _
    rw [Function.iterate_zero_apply]
    rw [show ({ p with retries := p.retries + 0 }) = p from by simp]
    rw [← hq]
  | succ n ih =>
    intro hn
    rw [Function.iterate_succ_apply', ih (by omega)]
    rw [processPendingPlays_singleton_not_ready _ { p with retries := p.retries + n } rfl
      (by simpa using hs)]
    have hlt : p.retries + n + 1 < 10 := by omega
    simp only [hlt, if_true]
    simp [Nat.add_assoc]

/-- C3.  A play whose source is still decoding returns the freshly allocated
(nonzero) instance handle synchronously and parks the full parameter
snapshot with retry counter 0; each retry sweep either promotes the request
through the very same `playAudioInternal` used by immediate play, or bumps
its retry counter; after exactly 10 sweeps with the source still missing the
request is dropped, no instance was ever created for the handle, and no
valid continuation can ever create one or emit a finished event for it. -/
theorem deferred_play_lifecycle (s : EngineState) (req : PlayRequest)
    (hs : mget req.sourceHandle s.sources = none)
    (hnz : 1 ≤ s.nextInstanceHandle) :
    ((playAudio s req).1 = s.nextInstanceHandle
      ∧ (playAudio s req).1 ≠ 0
      ∧ (playAudio s req).2 = { s with nextInstanceHandle := s.nextInstanceHandle + 1, pendingPlays := s.pendingPlays ++ [⟨s.nextInstanceHandle, req, 0⟩] })
    ∧ (∀ (s' : EngineState) (p : PendingPlay) (src : SourceAsset),
        s'.pendingPlays = [p] → mget p.req.sourceHandle s'.sources = some src →
        processPendingPlays s' =
          playAudioInternal p.handle p.req src { s' with pendingPlays := [] })
    ∧ (∀ (s' : EngineState) (p : PendingPlay),
        s'.pendingPlays = [p] → mget p.req.sourceHandle s'.sources = none →
        p.retries + 1 < 10 →
        processPendingPlays s' =
          { s' with pendingPlays := [{ p with retries := p.retries + 1 }] })
    ∧ (∀ (s' : EngineState) (p : PendingPlay),
        s'.pendingPlays = [p] → p.retries = 0 →
        mget p.req.sourceHandle s'.sources = none →
        (processPendingPlays^[9] s').pendingPlays = [{ p with retries := 9 }]
        ∧ processPendingPlays^[10] s' = { s' with pendingPlays := [] })
    ∧ (∀ (s' : EngineState) (h : Nat) (ops : List Op),
        mget h s'.instances = none → h < s'.nextInstanceHandle →
        (∀ p ∈ s'.pendingPlays, p.handle ≠ h) →
        s'.finishedCallbacks.count h = 0 →
        validTrace s' ops = true →
        mget h (run s' ops).instances = none
        ∧ (run s' ops).finishedCallbacks.count h = 0) := by
  refine ⟨⟨by simp [playAudio, hs], by simp [playAudio, hs]; omega, by simp [playAudio, hs]⟩,
    ?_, ?_, ?_, ?_⟩
  · intro s' p src hq hsrc
    simp [processPendingPlays, hq, sweepLoop, hsrc, playAudioInternal]
  · intro s' p hq hsrc hr
    rw [processPendingPlays_singleton_not_ready s' p hq hsrc]
    simp [hr]
  · intro s' p hq hr0 hsrc
    have h9 := sweep_iter_not_ready s' p hq hsrc 9 (by omega)
    constructor
    · rw [h9, hr0]
    · rw [show (10 : Nat) = 9 + 1 from rfl, Function.iterate_succ_apply', h9]
      rw [processPendingPlays_singleton_not_ready _ { p with retries := p.retries + 9 } rfl
        (by simpa using hsrc)]
      have hge : ¬(p.retries + 9 + 1 < 10) := by omega
      simp [hge]
  · intro s' h ops h0 hlt hpend hcount hv
    have hfresh : FreshI h s' := ⟨h0, hlt, hpend⟩
    refine ⟨(run_fresh ops s' hfresh hv).1, ?_⟩
    have := run_count_le ops s' hfresh hv
    omega

/-- The state after requesting `basicReq` before its source ever loads:
handle 1 is parked in the deferred queue. -/
def deferredState : EngineState := (playAudio initState basicReq).2

/-- C3 witness: the deferred request on the concrete initial state is
abandoned after 10 sweeps and handle 1 never becomes an instance. -/
theorem deferred_play_lifecycle_witness :
    (playAudio initState basicReq).1 = 1
    ∧ (processPendingPlays^[9] deferredState).pendingPlays =
        [⟨1, basicReq, 9⟩]
    ∧ (processPendingPlays^[10] deferredState).pendingPlays = []
    ∧ mget 1 (run (processPendingPlays^[10] deferredState) [Op.sweep, Op.poll]).instances
        = none := by
  have hmain := deferred_play_lifecycle initState basicReq rfl (by norm_num [initState])
  have hd := hmain.2.2.2.1 deferredState ⟨1, basicReq, 0⟩
    (by norm_num [deferredState, initState, playAudio, basicReq, mget]) rfl
    (by norm_num [deferredState, initState, playAudio, basicReq, mget])
  refine ⟨hmain.1.1, ?_, ?_, ?_⟩
  · exact hd.1
  · rw [hd.2]
  · have h10 : processPendingPlays^[10] deferredState = { deferredState with pendingPlays := [] } := hd.2
    rw [h10]
    refine (hmain.2.2.2.2 { deferredState with pendingPlays := [] } 1 [Op.sweep, Op.poll]
      (by norm_num [deferredState, initState, playAudio, basicReq, mget])
      (by norm_num [deferredState, initState, playAudio, basicReq, mget])
      (by simp)
      (by norm_num [deferredState, initState, playAudio, basicReq, mget])
      rfl).1

theorem mget_none_of_not_mem_keys {k : Nat} {m : List (Nat × α)}
    (h : k ∉ m.map Prod.fst) : mget k m = none := by
  induction m with
  | nil => rfl
  | cons kv rest ih =>
    obtain ⟨k', v'⟩ := kv
    simp only [List.map_cons, List.mem_cons] at h
    push_neg at h
    rw [mget_cons, if_neg (fun he => h.1 he.symm)]
    exact ih h.2

theorem mget_filter_nodup_none {k : Nat} {v : α} {m : List (Nat × α)} {f : Nat × α → Bool}
    (hnd : (m.map Prod.fst).Nodup) (h : mget k m = some v) (hf : f (k, v) = false) :
    mget k (m.filter f) = none := by
  induction m with
  | nil => simp [mget] at h
  | cons kv rest ih =>
    obtain ⟨k', v'⟩ := kv
    simp only [List.map_cons, List.nodup_cons] at hnd
    rw [mget_cons] at h
    by_cases hk : k' = k
    · subst hk
      simp at h
      subst h
      rw [List.filter_cons, hf]
      simp only [Bool.false_eq_true, if_false]
      exact mget_filter_none f (mget_none_of_not_mem_keys (by simpa using hnd.1))
    · simp only [if_neg hk] at h
      rw [List.filter_cons]
      by_cases hf' : f (k', v') = true
      · rw [hf']
        simp only [if_true]
        rw [mget_cons, if_neg hk]
        exact ih hnd.2 h
      · rw [Bool.eq_false_iff.mpr hf']
        simp only [Bool.false_eq_true, if_false]
        exact ih hnd.2 h

/-- A paused instance whose source has been destroyed (and whose decode is
long finished, the source handle being below the allocation counter): the
configuration from which C10 says the instance is stuck. -/
def PausedStuck (h sh b0 : Nat) (t0 : ℚ) (s : EngineState) : Prop :=
  (∃ i, mget h s.instances = some i ∧ i.paused = true ∧ i.stopped = false
     ∧ i.pauseTime = t0 ∧ i.sourceHandle = sh ∧ i.busHandle = b0)
  ∧ mget sh s.sources = none
  ∧ sh ∉ s.pendingDecodes
  ∧ sh < s.nextSourceHandle
  ∧ h < s.nextInstanceHandle
  ∧ (∀ p ∈ s.pendingPlays, p.handle ≠ h)

theorem stuck_step {h sh b0 : Nat} {t0 : ℚ} (s : EngineState) (op : Op)
    (hv : validOp s op = true)
    (hop1 : op ≠ Op.stop h)
    (hop2 : ∀ b, op = Op.stopAll b → b ≠ 0 ∧ b ≠ b0)
    (hps : PausedStuck h sh b0 t0 s) : PausedStuck h sh b0 t0 (step s op) := by
  obtain ⟨⟨i, hi, hipau, histo, hit, hish, hib⟩, hsrc, hdec, hslt, hlt, hpend⟩ := hps
  cases op with
  | load =>
    refine ⟨⟨i, hi, hipau, histo, hit, hish, hib⟩, hsrc, ?_, Nat.lt_succ_of_lt hslt, hlt, hpend⟩
    intro hmem
    rcases List.mem_append.mp hmem with hmem | hmem
    · exact hdec hmem
    · rcases List.mem_singleton.mp hmem with rfl
      exact absurd rfl (Nat.ne_of_lt hslt)
  | decoded h' d =>
    simp only [validOp, Bool.and_eq_true, decide_eq_true_eq] at hv
    have hmem : h' ∈ s.pendingDecodes := List.mem_of_elem_eq_true hv.1
    have hne : sh ≠ h' := fun he => hdec (he ▸ hmem)
    refine ⟨⟨i, hi, hipau, histo, hit, hish, hib⟩, ?_, ?_, hslt, hlt, hpend⟩
    · simpa [step, decodeComplete, mget_mset_ne hne] using hsrc
    · intro hmem
      exact hdec (List.mem_of_mem_filter hmem)
  | decodeFail h' =>
    refine ⟨⟨i, hi, hipau, histo, hit, hish, hib⟩, hsrc, ?_, hslt, hlt, hpend⟩
    intro hmem
    exact hdec (List.mem_of_mem_filter hmem)
  | destroySource h' =>
    exact ⟨⟨i, hi, hipau, histo, hit, hish, hib⟩, mget_mdel_none hsrc, hdec, hslt, hlt, hpend⟩
  | play req =>
    simp only [step, playAudio]
    cases hrs : mget req.sourceHandle s.sources with
    | none =>
      refine ⟨⟨i, hi, hipau, histo, hit, hish, hib⟩, hsrc, hdec, hslt,
        Nat.lt_succ_of_lt hlt, ?_⟩
      intro p hp
      rcases List.mem_append.mp hp with hp | hp
      · exact hpend p hp
      · rcases List.mem_singleton.mp hp with rfl
        exact fun he => absurd he.symm (Nat.ne_of_lt hlt)
    | some src =>
      have hne : h ≠ s.nextInstanceHandle := Nat.ne_of_lt hlt
      refine ⟨⟨i, ?_, hipau, histo, hit, hish, hib⟩, hsrc, hdec, hslt,
        Nat.lt_succ_of_lt hlt, hpend⟩
      simpa [playAudioInternal, mget_mset_ne hne] using hi
  | stop h' =>
    have hne : h ≠ h' := fun he => hop1 (by rw [he])
    simp only [step, stopAudio]
    cases hi' : mget h' s.instances with
    | none => exact ⟨⟨i, hi, hipau, histo, hit, hish, hib⟩, hsrc, hdec, hslt, hlt, hpend⟩
    | some i' =>
      exact ⟨⟨i, mget_mdel_some hne hi, hipau, histo, hit, hish, hib⟩,
        hsrc, hdec, hslt, hlt, hpend⟩
  | pause h' =>
    by_cases hne : h' = h
    · subst hne
      simp only [step, pauseAudio, hi, hipau, Bool.true_or, if_true]
      exact ⟨⟨i, hi, hipau, histo, hit, hish, hib⟩, hsrc, hdec, hslt, hlt, hpend⟩
    · cases hi' : mget h' s.instances with
      | none =>
        simp only [step, pauseAudio, hi']
        exact ⟨⟨i, hi, hipau, histo, hit, hish, hib⟩, hsrc, hdec, hslt, hlt, hpend⟩
      | some i' =>
        by_cases hc : i'.paused || i'.stopped
        · simp only [step, pauseAudio, hi', hc, if_true]
          exact ⟨⟨i, hi, hipau, histo, hit, hish, hib⟩, hsrc, hdec, hslt, hlt, hpend⟩
        · simp only [step, pauseAudio, hi', hc, if_false]
          have hne' : h ≠ h' := fun he => hne he.symm
          exact ⟨⟨i, by simpa [mget_mset_ne hne'] using hi, hipau, histo, hit, hish, hib⟩,
            hsrc, hdec, hslt, hlt, hpend⟩
  | resume h' =>
    by_cases hne : h' = h
    · subst hne
      simp only [step, resumeAudio, hi, hipau, histo, Bool.not_true, Bool.false_or,
        if_false, hish, hsrc]
      exact ⟨⟨i, hi, hipau, histo, hit, hish, hib⟩, hsrc, hdec, hslt, hlt, hpend⟩
    · cases hi' : mget h' s.instances with
      | none =>
        simp only [step, resumeAudio, hi']
        exact ⟨⟨i, hi, hipau, histo, hit, hish, hib⟩, hsrc, hdec, hslt, hlt, hpend⟩
      | some i' =>
        by_cases hc : !i'.paused || i'.stopped
        · simp only [step, resumeAudio, hi', hc, if_true]
          exact ⟨⟨i, hi, hipau, histo, hit, hish, hib⟩, hsrc, hdec, hslt, hlt, hpend⟩
        · cases hrs : mget i'.sourceHandle s.sources with
          | none =>
            simp only [step, resumeAudio, hi', hc, if_false, hrs]
            exact ⟨⟨i, hi, hipau, histo, hit, hish, hib⟩, hsrc, hdec, hslt, hlt, hpend⟩
          | some src =>
            simp only [step, resumeAudio, hi', hc, if_false, hrs]
            have hne' : h ≠ h' := fun he => hne he.symm
            exact ⟨⟨i, by simpa [mget_mset_ne hne'] using hi, hipau, histo, hit, hish, hib⟩,
              hsrc, hdec, hslt, hlt, hpend⟩
  | stopAll b =>
    obtain ⟨hb0, hbb⟩ := hop2 b rfl
    refine ⟨⟨i, ?_, hipau, histo, hit, hish, hib⟩, hsrc, hdec, hslt, hlt, hpend⟩
    refine mget_filter_some hi ?_
    simp only [Bool.not_eq_true']
    simp [hb0, hib, Ne.symm hbb]
  | setVolume h' v =>
    by_cases hne : h' = h
    · subst hne
      simp only [step, setAudioVolume, hi]
      exact ⟨⟨_, mget_mset_self _ _ _, hipau, histo, hit, hish, hib⟩,
        hsrc, hdec, hslt, hlt, hpend⟩
    · cases hi' : mget h' s.instances with
      | none =>
        simp only [step, setAudioVolume, hi']
        exact ⟨⟨i, hi, hipau, histo, hit, hish, hib⟩, hsrc, hdec, hslt, hlt, hpend⟩
      | some i' =>
        simp only [step, setAudioVolume, hi']
        have hne' : h ≠ h' := fun he => hne he.symm
        exact ⟨⟨i, by simpa [mget_mset_ne hne'] using hi, hipau, histo, hit, hish, hib⟩,
          hsrc, hdec, hslt, hlt, hpend⟩
  | setPan h' p =>
    by_cases hne : h' = h
    · subst hne
      cases hpn : i.pannerNode with
      | none =>
        simp only [step, setAudioPan, hi, hpn]
        exact ⟨⟨i, hi, hipau, histo, hit, hish, hib⟩, hsrc, hdec, hslt, hlt, hpend⟩
      | some pn =>
        simp only [step, setAudioPan, hi, hpn]
        exact ⟨⟨_, mget_mset_self _ _ _, hipau, histo, hit, hish, hib⟩,
          hsrc, hdec, hslt, hlt, hpend⟩
    · cases hi' : mget h' s.instances with
      | none =>
        simp only [step, setAudioPan, hi']
        exact ⟨⟨i, hi, hipau, histo, hit, hish, hib⟩, hsrc, hdec, hslt, hlt, hpend⟩
      | some i' =>
        have hne' : h ≠ h' := fun he => hne he.symm
        cases hpn : i'.pannerNode with
        | none =>
          simp only [step, setAudioPan, hi', hpn]
          exact ⟨⟨i, hi, hipau, histo, hit, hish, hib⟩, hsrc, hdec, hslt, hlt, hpend⟩
        | some pn =>
          simp only [step, setAudioPan, hi', hpn]
          exact ⟨⟨i, by simpa [mget_mset_ne hne'] using hi, hipau, histo, hit, hish, hib⟩,
            hsrc, hdec, hslt, hlt, hpend⟩
  | setPitch h' p =>
    by_cases hne : h' = h
    · subst hne
      simp only [step, setAudioPitch, hi]
      exact ⟨⟨_, mget_mset_self _ _ _, hipau, histo, hit, hish, hib⟩,
        hsrc, hdec, hslt, hlt, hpend⟩
    · cases hi' : mget h' s.instances with
      | none =>
        simp only [step, setAudioPitch, hi']
        exact ⟨⟨i, hi, hipau, histo, hit, hish, hib⟩, hsrc, hdec, hslt, hlt, hpend⟩
      | some i' =>
        simp only [step, setAudioPitch, hi']
        have hne' : h ≠ h' := fun he => hne he.symm
        exact ⟨⟨i, by simpa [mget_mset_ne hne'] using hi, hipau, histo, hit, hish, hib⟩,
          hsrc, hdec, hslt, hlt, hpend⟩
  | setLooping h' b =>
    by_cases hne : h' = h
    · subst hne
      simp only [step, setAudioLooping, hi]
      exact ⟨⟨_, mget_mset_self _ _ _, hipau, histo, hit, hish, hib⟩,
        hsrc, hdec, hslt, hlt, hpend⟩
    · cases hi' : mget h' s.instances with
      | none =>
        simp only [step, setAudioLooping, hi']
        exact ⟨⟨i, hi, hipau, histo, hit, hish, hib⟩, hsrc, hdec, hslt, hlt, hpend⟩
      | some i' =>
        simp only [step, setAudioLooping, hi']
        have hne' : h ≠ h' := fun he => hne he.symm
        exact ⟨⟨i, by simpa [mget_mset_ne hne'] using hi, hipau, histo, hit, hish, hib⟩,
          hsrc, hdec, hslt, hlt, hpend⟩
  | setPosition h' x y =>
    by_cases hne : h' = h
    · subst hne
      cases hsp : i.spatialPanner with
      | none =>
        simp only [step, setAudioPosition, hi, hsp]
        exact ⟨⟨i, hi, hipau, histo, hit, hish, hib⟩, hsrc, hdec, hslt, hlt, hpend⟩
      | some sp =>
        simp only [step, setAudioPosition, hi, hsp]
        exact ⟨⟨_, mget_mset_self _ _ _, hipau, histo, hit, hish, hib⟩,
          hsrc, hdec, hslt, hlt, hpend⟩
    · cases hi' : mget h' s.instances with
      | none =>
        simp only [step, setAudioPosition, hi']
        exact ⟨⟨i, hi, hipau, histo, hit, hish, hib⟩, hsrc, hdec, hslt, hlt, hpend⟩
      | some i' =>
        have hne' : h ≠ h' := fun he => hne he.symm
        cases hsp : i'.spatialPanner with
        | none =>
          simp only [step, setAudioPosition, hi', hsp]
          exact ⟨⟨i, hi, hipau, histo, hit, hish, hib⟩, hsrc, hdec, hslt, hlt, hpend⟩
        | some sp =>
          simp only [step, setAudioPosition, hi', hsp]
          exact ⟨⟨i, by simpa [mget_mset_ne hne'] using hi, hipau, histo, hit, hish, hib⟩,
            hsrc, hdec, hslt, hlt, hpend⟩
  | createBus =>
    exact ⟨⟨i, hi, hipau, histo, hit, hish, hib⟩, hsrc, hdec, hslt, hlt, hpend⟩
  | destroyBus h' =>
    by_cases hb : h' ≤ 1
    · simp only [step, destroyAudioBus, hb, if_true]
      exact ⟨⟨i, hi, hipau, histo, hit, hish, hib⟩, hsrc, hdec, hslt, hlt, hpend⟩
    · cases hbb : mget h' s.buses with
      | none =>
        simp only [step, destroyAudioBus, hb, if_false, hbb]
        exact ⟨⟨i, hi, hipau, histo, hit, hish, hib⟩, hsrc, hdec, hslt, hlt, hpend⟩
      | some bus =>
        simp only [step, destroyAudioBus, hb, if_false, hbb]
        exact ⟨⟨i, hi, hipau, histo, hit, hish, hib⟩, hsrc, hdec, hslt, hlt, hpend⟩
  | setBusVolume h' v =>
    cases hbb : mget h' s.buses with
    | none =>
      simp only [step, setAudioBusVolume, hbb]
      exact ⟨⟨i, hi, hipau, histo, hit, hish, hib⟩, hsrc, hdec, hslt, hlt, hpend⟩
    | some bus =>
      simp only [step, setAudioBusVolume, hbb]
      exact ⟨⟨i, hi, hipau, histo, hit, hish, hib⟩, hsrc, hdec, hslt, hlt, hpend⟩
  | setBusMuted h' m =>
    cases hbb : mget h' s.buses with
    | none =>
      simp only [step, setAudioBusMuted, hbb]
      exact ⟨⟨i, hi, hipau, histo, hit, hish, hib⟩, hsrc, hdec, hslt, hlt, hpend⟩
    | some bus =>
      simp only [step, setAudioBusMuted, hbb]
      exact ⟨⟨i, hi, hipau, histo, hit, hish, hib⟩, hsrc, hdec, hslt, hlt, hpend⟩
  | setListener x y =>
    exact ⟨⟨i, hi, hipau, histo, hit, hish, hib⟩, hsrc, hdec, hslt, hlt, hpend⟩
  | ended h' =>
    by_cases hne : h' = h
    · subst hne
      rw [show validOp s (Op.ended h') = (!i.paused && !i.stopped && !i.loop) from by
        simp [validOp, hi]] at hv
      rw [hipau] at hv
      simp at hv
    · cases hi' : mget h' s.instances with
      | none =>
        simp only [step, endedEvent, hi']
        exact ⟨⟨i, hi, hipau, histo, hit, hish, hib⟩, hsrc, hdec, hslt, hlt, hpend⟩
      | some i' =>
        have hne' : h ≠ h' := fun he => hne he.symm
        by_cases hc : !i'.stopped && !i'.loop
        · simp only [step, endedEvent, hi', hc, if_true]
          exact ⟨⟨i, mget_mdel_some hne' hi, hipau, histo, hit, hish, hib⟩,
            hsrc, hdec, hslt, hlt, hpend⟩
        · simp only [step, endedEvent, hi', hc, if_false]
          exact ⟨⟨i, hi, hipau, histo, hit, hish, hib⟩, hsrc, hdec, hslt, hlt, hpend⟩
  | sweep =>
    have hfields := sweepLoop_fields s.pendingPlays { s with pendingPlays := [] }
    refine ⟨⟨i, sweepLoop_mget_some _ _ hpend hi, hipau, histo, hit, hish, hib⟩,
      ?_, ?_, ?_, ?_, ?_⟩
    · simpa [step, processPendingPlays, hfields.2.2.2.1] using hsrc
    · simpa [step, processPendingPlays, hfields.2.2.2.2.1] using hdec
    · simpa [step, processPendingPlays, hfields.1] using hslt
    · simpa [step, processPendingPlays, hfields.2.1] using hlt
    · exact sweepLoop_keep_ne _ _ hpend
  | poll =>
    simp only [step, pollFinishedCallback]
    cases hq : s.finishedCallbacks with
    | nil => exact ⟨⟨i, hi, hipau, histo, hit, hish, hib⟩, hsrc, hdec, hslt, hlt, hpend⟩
    | cons x rest => exact ⟨⟨i, hi, hipau, histo, hit, hish, hib⟩, hsrc, hdec, hslt, hlt, hpend⟩
  | advanceClock d =>
    exact ⟨⟨i, hi, hipau, histo, hit, hish, hib⟩, hsrc, hdec, hslt, hlt, hpend⟩

theorem run_stuck {h sh b0 : Nat} {t0 : ℚ} : ∀ (ops : List Op) (s : EngineState),
    PausedStuck h sh b0 t0 s → validTrace s ops = true →
    (∀ op ∈ ops, op ≠ Op.stop h ∧ ∀ b, op = Op.stopAll b → b ≠ 0 ∧ b ≠ b0) →
    PausedStuck h sh b0 t0 (run s ops)
  | [], _, hps, _, _ => hps
  | op :: ops, s, hps, hv, hops => by
    rw [run]
    rw [validTrace, Bool.and_eq_true] at hv
    refine run_stuck ops (step s op) ?_ hv.2
      (fun op' hop' => hops op' (List.mem_cons_of_mem _ hop'))
    exact stuck_step s op hv.1 (hops op (List.mem_cons_self _ _)).1
      (hops op (List.mem_cons_self _ _)).2 hps

/-- C10.  If a source is destroyed while an instance referencing it is
paused, `resumeAudio` on that instance is a silent no-op (it requires the
source in the registry), and along every valid continuation that contains no
explicit `stop` of the handle and no matching `stopAll`, the instance stays
in the table paused forever: `isAudioPaused` keeps returning true,
`getAudioTime` keeps returning the stored pause offset, and resume stays a
no-op.  Explicit `stopAudio` (or a matching `stopAllAudio`, under the
reachable-state invariant that table keys are unique) does remove the
entry. -/
theorem paused_orphan_instance_stuck (s : EngineState) (h : Nat) (i : Instance)
    (hi : mget h s.instances = some i)
    (hpau : i.paused = true) (hsto : i.stopped = false)
    (hsrc : mget i.sourceHandle s.sources = none)
    (hdec : i.sourceHandle ∉ s.pendingDecodes)
    (hslt : i.sourceHandle < s.nextSourceHandle)
    (hlt : h < s.nextInstanceHandle)
    (hpend : ∀ p ∈ s.pendingPlays, p.handle ≠ h) :
    resumeAudio s h = s
    ∧ isAudioPaused s h = true
    ∧ getAudioTime s h = i.pauseTime
    ∧ (∀ ops, validTrace s ops = true →
        (∀ op ∈ ops, op ≠ Op.stop h ∧ ∀ b, op = Op.stopAll b → b ≠ 0 ∧ b ≠ i.busHandle) →
        ∃ i', mget h (run s ops).instances = some i'
          ∧ i'.paused = true ∧ i'.pauseTime = i.pauseTime
          ∧ resumeAudio (run s ops) h = run s ops
          ∧ isAudioPaused (run s ops) h = true
          ∧ getAudioTime (run s ops) h = i.pauseTime)
    ∧ mget h (stopAudio s h).instances = none
    ∧ mget h (stopAllAudio s 0).instances = none
    ∧ ((s.instances.map Prod.fst).Nodup →
        mget h (stopAllAudio s i.busHandle).instances = none) := by
  refine ⟨?_, ?_, ?_, ?_, ?_, ?_, ?_⟩
  · simp [resumeAudio, hi, hpau, hsto, hsrc]
  · simp [isAudioPaused, hi, hpau]
  · simp [getAudioTime, hi, hpau]
  · intro ops hv hops
    have hps : PausedStuck h i.sourceHandle i.busHandle i.pauseTime s :=
      ⟨⟨i, hi, hpau, hsto, rfl, rfl, rfl⟩, hsrc, hdec, hslt, hlt, hpend⟩
    obtain ⟨⟨i', hi', hipau, histo, hit, hish, _⟩, hsrc', _, _, _, _⟩ :=
      run_stuck ops s hps hv hops
    refine ⟨i', hi', hipau, hit, ?_, ?_, ?_⟩
    · rw [← hish] at hsrc'
      simp [resumeAudio, hi', hipau, histo, hsrc']
    · simp [isAudioPaused, hi', hipau]
    · simp [getAudioTime, hi', hipau, hit]
  · simp [stopAudio, hi, mget_mdel_self]
  · simp [stopAllAudio]
    exact mget_none_of_not_mem_keys (by simp)
  · intro hnd
    refine mget_filter_nodup_none hnd hi ?_
    simp
/-- The concrete C10 scenario: play, pause, then destroy the source. -/
def orphanState : EngineState := destroyAudio (pauseAudio basicPlayingState 1) 1

/-- The paused instance stored at handle 1 in `orphanState`. -/
def orphanInstance : Instance := { basicInstance with paused := true, pauseTime := 0 }

/-- C10 witness: the concrete orphaned paused instance survives a resume
attempt and a clock advance, still paused at the same offset. -/
theorem paused_orphan_instance_stuck_witness :
    resumeAudio orphanState 1 = orphanState
    ∧ isAudioPaused orphanState 1 = true
    ∧ (∃ i', mget 1 (run orphanState [Op.resume 1, Op.advanceClock 5]).instances = some i'
        ∧ i'.paused = true ∧ i'.pauseTime = orphanInstance.pauseTime
        ∧ resumeAudio (run orphanState [Op.resume 1, Op.advanceClock 5]) 1 =
            run orphanState [Op.resume 1, Op.advanceClock 5]
        ∧ isAudioPaused (run orphanState [Op.resume 1, Op.advanceClock 5]) 1 = true
        ∧ getAudioTime (run orphanState [Op.resume 1, Op.advanceClock 5]) 1 =
            orphanInstance.pauseTime)
    ∧ mget 1 (stopAudio orphanState 1).instances = none := by
  have hi : mget 1 orphanState.instances = some orphanInstance := by
    norm_num [orphanState, orphanInstance, basicPlayingState, basicReq, basicInstance,
      destroyAudio, pauseAudio, playAudio, playAudioInternal, builtInstance,
      decodeComplete, loadAudio, initState, mget, mset, mdel]
  have hsrc : mget orphanInstance.sourceHandle orphanState.sources = none := by
    norm_num [orphanState, orphanInstance, basicPlayingState, basicReq, basicInstance,
      destroyAudio, pauseAudio, playAudio, playAudioInternal, builtInstance,
      decodeComplete, loadAudio, initState, mget, mset, mdel]
  have hdec : orphanInstance.sourceHandle ∉ orphanState.pendingDecodes := by
    norm_num [orphanState, orphanInstance, basicPlayingState, basicReq, basicInstance,
      destroyAudio, pauseAudio, playAudio, playAudioInternal, builtInstance,
      decodeComplete, loadAudio, initState, mget, mset, mdel]
  have hslt : orphanInstance.sourceHandle < orphanState.nextSourceHandle := by
    norm_num [orphanState, orphanInstance, basicPlayingState, basicReq, basicInstance,
      destroyAudio, pauseAudio, playAudio, playAudioInternal, builtInstance,
      decodeComplete, loadAudio, initState, mget, mset, mdel]
  have hlt : 1 < orphanState.nextInstanceHandle := by
    norm_num [orphanState, orphanInstance, basicPlayingState, basicReq, basicInstance,
      destroyAudio, pauseAudio, playAudio, playAudioInternal, builtInstance,
      decodeComplete, loadAudio, initState, mget, mset, mdel]
  have hpend : ∀ p ∈ orphanState.pendingPlays, p.handle ≠ 1 := by
    intro p hp
    simp [orphanState, orphanInstance, basicPlayingState, basicReq, basicInstance,
      destroyAudio, pauseAudio, playAudio, playAudioInternal, builtInstance,
      decodeComplete, loadAudio, initState, mget, mset, mdel] at hp
  have hmain := paused_orphan_instance_stuck orphanState 1 orphanInstance hi rfl rfl
    hsrc hdec hslt hlt hpend
  refine ⟨hmain.1, hmain.2.1, ?_, hmain.2.2.2.2.2.1⟩
  refine hmain.2.2.2.1 [Op.resume 1, Op.advanceClock 5] (by norm_num [validTrace, validOp]) ?_
  intro op hop
  rcases List.mem_cons.mp hop with rfl | hop
  · exact ⟨by simp, fun b hb => by cases hb⟩
  rcases List.mem_cons.mp hop with rfl | hop
  · exact ⟨by simp, fun b hb => by cases hb⟩
  · cases hop

end Karl2dAudio
